import Mathlib

/-!
# Verification of the tinyaes AES block cipher and padding schemes

A shallow embedding of the `tinyaes` Rust crate (files `src/aes.rs`,
`src/padding.rs`). Bytes (`u8`) are modelled as `Nat` values below 256,
with wrap-around made explicit via `% 256`; the 4x4 AES state is a
structure with one field per byte; fallible operations (Rust panics)
return `Except`.
-/

set_option maxRecDepth 10000

namespace TinyAES

/-- The forward S-Box table from `aes.rs` (`S_BOX`), 16 rows of 16 bytes. -/
def S_BOX : List (List Nat) := [
  [0x63, 0x7c, 0x77, 0x7b, 0xf2, 0x6b, 0x6f, 0xc5, 0x30, 0x01, 0x67, 0x2b, 0xfe, 0xd7, 0xab, 0x76],
  [0xca, 0x82, 0xc9, 0x7d, 0xfa, 0x59, 0x47, 0xf0, 0xad, 0xd4, 0xa2, 0xaf, 0x9c, 0xa4, 0x72, 0xc0],
  [0xb7, 0xfd, 0x93, 0x26, 0x36, 0x3f, 0xf7, 0xcc, 0x34, 0xa5, 0xe5, 0xf1, 0x71, 0xd8, 0x31, 0x15],
  [0x04, 0xc7, 0x23, 0xc3, 0x18, 0x96, 0x05, 0x9a, 0x07, 0x12, 0x80, 0xe2, 0xeb, 0x27, 0xb2, 0x75],
  [0x09, 0x83, 0x2c, 0x1a, 0x1b, 0x6e, 0x5a, 0xa0, 0x52, 0x3b, 0xd6, 0xb3, 0x29, 0xe3, 0x2f, 0x84],
  [0x53, 0xd1, 0x00, 0xed, 0x20, 0xfc, 0xb1, 0x5b, 0x6a, 0xcb, 0xbe, 0x39, 0x4a, 0x4c, 0x58, 0xcf],
  [0xd0, 0xef, 0xaa, 0xfb, 0x43, 0x4d, 0x33, 0x85, 0x45, 0xf9, 0x02, 0x7f, 0x50, 0x3c, 0x9f, 0xa8],
  [0x51, 0xa3, 0x40, 0x8f, 0x92, 0x9d, 0x38, 0xf5, 0xbc, 0xb6, 0xda, 0x21, 0x10, 0xff, 0xf3, 0xd2],
  [0xcd, 0x0c, 0x13, 0xec, 0x5f, 0x97, 0x44, 0x17, 0xc4, 0xa7, 0x7e, 0x3d, 0x64, 0x5d, 0x19, 0x73],
  [0x60, 0x81, 0x4f, 0xdc, 0x22, 0x2a, 0x90, 0x88, 0x46, 0xee, 0xb8, 0x14, 0xde, 0x5e, 0x0b, 0xdb],
  [0xe0, 0x32, 0x3a, 0x0a, 0x49, 0x06, 0x24, 0x5c, 0xc2, 0xd3, 0xac, 0x62, 0x91, 0x95, 0xe4, 0x79],
  [0xe7, 0xc8, 0x37, 0x6d, 0x8d, 0xd5, 0x4e, 0xa9, 0x6c, 0x56, 0xf4, 0xea, 0x65, 0x7a, 0xae, 0x08],
  [0xba, 0x78, 0x25, 0x2e, 0x1c, 0xa6, 0xb4, 0xc6, 0xe8, 0xdd, 0x74, 0x1f, 0x4b, 0xbd, 0x8b, 0x8a],
  [0x70, 0x3e, 0xb5, 0x66, 0x48, 0x03, 0xf6, 0x0e, 0x61, 0x35, 0x57, 0xb9, 0x86, 0xc1, 0x1d, 0x9e],
  [0xe1, 0xf8, 0x98, 0x11, 0x69, 0xd9, 0x8e, 0x94, 0x9b, 0x1e, 0x87, 0xe9, 0xce, 0x55, 0x28, 0xdf],
  [0x8c, 0xa1, 0x89, 0x0d, 0xbf, 0xe6, 0x42, 0x68, 0x41, 0x99, 0x2d, 0x0f, 0xb0, 0x54, 0xbb, 0x16]]

/-- The inverse S-Box table from `aes.rs` (`INV_S_BOX`). -/
def INV_S_BOX : List (List Nat) := [
  [0x52, 0x09, 0x6a, 0xd5, 0x30, 0x36, 0xa5, 0x38, 0xbf, 0x40, 0xa3, 0x9e, 0x81, 0xf3, 0xd7, 0xfb],
  [0x7c, 0xe3, 0x39, 0x82, 0x9b, 0x2f, 0xff, 0x87, 0x34, 0x8e, 0x43, 0x44, 0xc4, 0xde, 0xe9, 0xcb],
  [0x54, 0x7b, 0x94, 0x32, 0xa6, 0xc2, 0x23, 0x3d, 0xee, 0x4c, 0x95, 0x0b, 0x42, 0xfa, 0xc3, 0x4e],
  [0x08, 0x2e, 0xa1, 0x66, 0x28, 0xd9, 0x24, 0xb2, 0x76, 0x5b, 0xa2, 0x49, 0x6d, 0x8b, 0xd1, 0x25],
  [0x72, 0xf8, 0xf6, 0x64, 0x86, 0x68, 0x98, 0x16, 0xd4, 0xa4, 0x5c, 0xcc, 0x5d, 0x65, 0xb6, 0x92],
  [0x6c, 0x70, 0x48, 0x50, 0xfd, 0xed, 0xb9, 0xda, 0x5e, 0x15, 0x46, 0x57, 0xa7, 0x8d, 0x9d, 0x84],
  [0x90, 0xd8, 0xab, 0x00, 0x8c, 0xbc, 0xd3, 0x0a, 0xf7, 0xe4, 0x58, 0x05, 0xb8, 0xb3, 0x45, 0x06],
  [0xd0, 0x2c, 0x1e, 0x8f, 0xca, 0x3f, 0x0f, 0x02, 0xc1, 0xaf, 0xbd, 0x03, 0x01, 0x13, 0x8a, 0x6b],
  [0x3a, 0x91, 0x11, 0x41, 0x4f, 0x67, 0xdc, 0xea, 0x97, 0xf2, 0xcf, 0xce, 0xf0, 0xb4, 0xe6, 0x73],
  [0x96, 0xac, 0x74, 0x22, 0xe7, 0xad, 0x35, 0x85, 0xe2, 0xf9, 0x37, 0xe8, 0x1c, 0x75, 0xdf, 0x6e],
  [0x47, 0xf1, 0x1a, 0x71, 0x1d, 0x29, 0xc5, 0x89, 0x6f, 0xb7, 0x62, 0x0e, 0xaa, 0x18, 0xbe, 0x1b],
  [0xfc, 0x56, 0x3e, 0x4b, 0xc6, 0xd2, 0x79, 0x20, 0x9a, 0xdb, 0xc0, 0xfe, 0x78, 0xcd, 0x5a, 0xf4],
  [0x1f, 0xdd, 0xa8, 0x33, 0x88, 0x07, 0xc7, 0x31, 0xb1, 0x12, 0x10, 0x59, 0x27, 0x80, 0xec, 0x5f],
  [0x60, 0x51, 0x7f, 0xa9, 0x19, 0xb5, 0x4a, 0x0d, 0x2d, 0xe5, 0x7a, 0x9f, 0x93, 0xc9, 0x9c, 0xef],
  [0xa0, 0xe0, 0x3b, 0x4d, 0xae, 0x2a, 0xf5, 0xb0, 0xc8, 0xeb, 0xbb, 0x3c, 0x83, 0x53, 0x99, 0x61],
  [0x17, 0x2b, 0x04, 0x7e, 0xba, 0x77, 0xd6, 0x26, 0xe1, 0x69, 0x14, 0x63, 0x55, 0x21, 0x0c, 0x7d]]

/-- The round constants from `aes.rs` (`R_CON`), stored as 32-bit words. -/
def R_CON : List Nat := [
  0x01000000, 0x02000000, 0x04000000, 0x08000000, 0x10000000,
  0x20000000, 0x40000000, 0x80000000, 0x1b000000, 0x36000000]

/-- One S-Box lookup as written in `aes.rs`: row is the high nibble,
column the low nibble (`S_BOX[(b >> 4)][(b & 0b00001111)]`). -/
def sboxByte (b : Nat) : Nat :=
  (S_BOX.getD (b >>> 4) []).getD (b &&& 0b00001111) 0

/-- One inverse S-Box lookup as written in `aes.rs`. -/
def invSboxByte (b : Nat) : Nat :=
  (INV_S_BOX.getD (b >>> 4) []).getD (b &&& 0b00001111) 0

/-- The GF(2^8) doubling written inline throughout `aes.rs`:
`if (x >> 7) == 1 then (x << 1) ^ 0x1b else x << 1` on a `u8`,
with the `u8` shift's truncation made explicit by `% 256`. -/
def xtime (x : Nat) : Nat :=
  if x >>> 7 = 1 then ((x <<< 1) % 256) ^^^ 0x1b else (x <<< 1) % 256

/-! ## Byte-level lemmas -/

theorem xor_lt_256 {a b : Nat} (ha : a < 256) (hb : b < 256) : a ^^^ b < 256 :=
  Nat.bitwise_lt_two_pow (n := 8) (f := bne) ha hb

theorem xor_left_comm' (a b c : Nat) : a ^^^ (b ^^^ c) = b ^^^ (a ^^^ c) := by
  rw [← Nat.xor_assoc, Nat.xor_comm a b, Nat.xor_assoc]

theorem shiftRight7_eq {a : Nat} (ha : a < 256) :
    a >>> 7 = if a.testBit 7 then 1 else 0 := by
  rw [Nat.testBit_to_div_mod, Nat.shiftRight_eq_div_pow]
  have h27 : (2 : Nat) ^ 7 = 128 := by norm_num
  rw [h27]
  by_cases h : a / 128 % 2 = 1 <;> simp [h] <;> omega

theorem xtime_eq {x : Nat} (hx : x < 256) :
    xtime x = ((x <<< 1) % 256) ^^^ (if x.testBit 7 then 27 else 0) := by
  unfold xtime
  rw [shiftRight7_eq hx]
  cases h : x.testBit 7 <;> simp

theorem shl_mod_xor (a b : Nat) :
    ((a ^^^ b) <<< 1) % 256 = ((a <<< 1) % 256) ^^^ ((b <<< 1) % 256) := by
  have h256 : (256 : Nat) = 2 ^ 8 := by norm_num
  rw [h256]
  apply Nat.eq_of_testBit_eq
  intro i
  simp only [Nat.testBit_mod_two_pow, Nat.testBit_shiftLeft, Nat.testBit_xor]
  by_cases h8 : i < 8 <;> by_cases h1 : 1 ≤ i <;> simp [h8, h1]

/-- `xtime` is GF(2)-linear on bytes. -/
theorem xtime_xor {a b : Nat} (ha : a < 256) (hb : b < 256) :
    xtime (a ^^^ b) = xtime a ^^^ xtime b := by
  rw [xtime_eq ha, xtime_eq hb, xtime_eq (xor_lt_256 ha hb), Nat.testBit_xor,
    shl_mod_xor]
  cases hta : a.testBit 7 <;> cases htb : b.testBit 7 <;>
    simp [Nat.xor_assoc, Nat.xor_comm, xor_left_comm', Nat.xor_cancel_left]

theorem xtime_lt (a : Nat) : xtime a < 256 := by
  unfold xtime
  have h1 : (a <<< 1) % 256 < 256 := Nat.mod_lt _ (by norm_num)
  by_cases h : a >>> 7 = 1 <;> simp [h]
  · exact xor_lt_256 h1 (by norm_num)
  · exact h1

theorem xtime_zero : xtime 0 = 0 := by decide

theorem sboxByte_lt {a : Nat} (ha : a < 256) : sboxByte a < 256 := by
  revert ha
  have : ∀ x : Fin 256, sboxByte x.val < 256 := by decide
  intro ha
  exact this ⟨a, ha⟩

theorem invSboxByte_lt {a : Nat} (ha : a < 256) : invSboxByte a < 256 := by
  revert ha
  have : ∀ x : Fin 256, invSboxByte x.val < 256 := by decide
  intro ha
  exact this ⟨a, ha⟩

/-- The inverse S-Box inverts the S-Box on every byte. -/
theorem invSbox_sbox {a : Nat} (ha : a < 256) : invSboxByte (sboxByte a) = a := by
  revert ha
  have : ∀ x : Fin 256, invSboxByte (sboxByte x.val) = x.val := by decide
  intro ha
  exact this ⟨a, ha⟩

/-! ## The 4x4 state (`[[u8; 4]; 4]` in `aes.rs`), one field per byte.
Field `s{r}{c}` is `state[r][c]`. -/

structure AESState where
  s00 : Nat
  s01 : Nat
  s02 : Nat
  s03 : Nat
  s10 : Nat
  s11 : Nat
  s12 : Nat
  s13 : Nat
  s20 : Nat
  s21 : Nat
  s22 : Nat
  s23 : Nat
  s30 : Nat
  s31 : Nat
  s32 : Nat
  s33 : Nat
  deriving DecidableEq, Repr

/-- A 4-byte schedule word (`[u8; 4]` in `aes.rs`). -/
structure Word where
  b0 : Nat
  b1 : Nat
  b2 : Nat
  b3 : Nat
  deriving DecidableEq, Repr

/-- The all-zero word, used as the out-of-range default for `List.getD`. -/
def zeroWord : Word := ⟨0, 0, 0, 0⟩

/-- All sixteen state bytes are in `u8` range. -/
def StateBounded (s : AESState) : Prop :=
  s.s00 < 256 ∧ s.s01 < 256 ∧ s.s02 < 256 ∧ s.s03 < 256 ∧
  s.s10 < 256 ∧ s.s11 < 256 ∧ s.s12 < 256 ∧ s.s13 < 256 ∧
  s.s20 < 256 ∧ s.s21 < 256 ∧ s.s22 < 256 ∧ s.s23 < 256 ∧
  s.s30 < 256 ∧ s.s31 < 256 ∧ s.s32 < 256 ∧ s.s33 < 256

instance (s : AESState) : Decidable (StateBounded s) := by
  unfold StateBounded
  infer_instance

/-- All four word bytes are in `u8` range. -/
def WordBounded (w : Word) : Prop :=
  w.b0 < 256 ∧ w.b1 < 256 ∧ w.b2 < 256 ∧ w.b3 < 256

instance (w : Word) : Decidable (WordBounded w) := by
  unfold WordBounded
  infer_instance

/-- `AES::sub_bytes`: every state byte through the S-Box. -/
def sub_bytes (s : AESState) : AESState :=
  ⟨sboxByte s.s00, sboxByte s.s01, sboxByte s.s02, sboxByte s.s03,
   sboxByte s.s10, sboxByte s.s11, sboxByte s.s12, sboxByte s.s13,
   sboxByte s.s20, sboxByte s.s21, sboxByte s.s22, sboxByte s.s23,
   sboxByte s.s30, sboxByte s.s31, sboxByte s.s32, sboxByte s.s33⟩

/-- `AES::inv_sub_bytes`. -/
def inv_sub_bytes (s : AESState) : AESState :=
  ⟨invSboxByte s.s00, invSboxByte s.s01, invSboxByte s.s02, invSboxByte s.s03,
   invSboxByte s.s10, invSboxByte s.s11, invSboxByte s.s12, invSboxByte s.s13,
   invSboxByte s.s20, invSboxByte s.s21, invSboxByte s.s22, invSboxByte s.s23,
   invSboxByte s.s30, invSboxByte s.s31, invSboxByte s.s32, invSboxByte s.s33⟩

/-- `AES::shift_rows`: row `r` rotated left by `r` positions. -/
def shift_rows (s : AESState) : AESState :=
  ⟨s.s00, s.s01, s.s02, s.s03,
   s.s11, s.s12, s.s13, s.s10,
   s.s22, s.s23, s.s20, s.s21,
   s.s33, s.s30, s.s31, s.s32⟩

/-- `AES::inv_shift_rows`: row `r` rotated right by `r` positions. -/
def inv_shift_rows (s : AESState) : AESState :=
  ⟨s.s00, s.s01, s.s02, s.s03,
   s.s13, s.s10, s.s11, s.s12,
   s.s22, s.s23, s.s20, s.s21,
   s.s31, s.s32, s.s33, s.s30⟩

/-- `AES::add_round_key` with the four schedule words for one round:
`state[r][c] ^= round_keys[c][r]`. -/
def add_round_key (s : AESState) (k0 k1 k2 k3 : Word) : AESState :=
  ⟨s.s00 ^^^ k0.b0, s.s01 ^^^ k1.b0, s.s02 ^^^ k2.b0, s.s03 ^^^ k3.b0,
   s.s10 ^^^ k0.b1, s.s11 ^^^ k1.b1, s.s12 ^^^ k2.b1, s.s13 ^^^ k3.b1,
   s.s20 ^^^ k0.b2, s.s21 ^^^ k1.b2, s.s22 ^^^ k2.b2, s.s23 ^^^ k3.b2,
   s.s30 ^^^ k0.b3, s.s31 ^^^ k1.b3, s.s32 ^^^ k2.b3, s.s33 ^^^ k3.b3⟩

/-! ## MixColumns. The per-column formulas of `AES::mix_columns`, with the
inlined `u8` doubling written as `xtime`. -/

def mc0 (a b c d : Nat) : Nat := xtime a ^^^ (xtime b ^^^ b) ^^^ c ^^^ d

def mc1 (a b c d : Nat) : Nat := a ^^^ xtime b ^^^ (xtime c ^^^ c) ^^^ d

def mc2 (a b c d : Nat) : Nat := a ^^^ b ^^^ xtime c ^^^ (xtime d ^^^ d)

def mc3 (a b c d : Nat) : Nat := (xtime a ^^^ a) ^^^ b ^^^ c ^^^ xtime d

/-- `AES::mix_columns`, column by column. -/
def mix_columns (s : AESState) : AESState :=
  ⟨mc0 s.s00 s.s10 s.s20 s.s30, mc0 s.s01 s.s11 s.s21 s.s31,
   mc0 s.s02 s.s12 s.s22 s.s32, mc0 s.s03 s.s13 s.s23 s.s33,
   mc1 s.s00 s.s10 s.s20 s.s30, mc1 s.s01 s.s11 s.s21 s.s31,
   mc1 s.s02 s.s12 s.s22 s.s32, mc1 s.s03 s.s13 s.s23 s.s33,
   mc2 s.s00 s.s10 s.s20 s.s30, mc2 s.s01 s.s11 s.s21 s.s31,
   mc2 s.s02 s.s12 s.s22 s.s32, mc2 s.s03 s.s13 s.s23 s.s33,
   mc3 s.s00 s.s10 s.s20 s.s30, mc3 s.s01 s.s11 s.s21 s.s31,
   mc3 s.s02 s.s12 s.s22 s.s32, mc3 s.s03 s.s13 s.s23 s.s33⟩

/-! The per-column formulas of `AES::inv_mix_columns`. In the source,
`temp_mul[i][0] = xtime(state[i][c])`, `temp_mul[i][1] = xtime(temp_mul[i][0])`
and `temp_mul[i][2] = xtime(temp_mul[i][1])`, i.e. the x2, x4 and x8 multiples,
XOR-combined per the inverse matrix rows. -/

def imc0 (a b c d : Nat) : Nat :=
  (xtime a ^^^ xtime (xtime a) ^^^ xtime (xtime (xtime a))) ^^^
  (b ^^^ xtime b ^^^ xtime (xtime (xtime b))) ^^^
  (c ^^^ xtime (xtime c) ^^^ xtime (xtime (xtime c))) ^^^
  (d ^^^ xtime (xtime (xtime d)))

def imc1 (a b c d : Nat) : Nat :=
  (a ^^^ xtime (xtime (xtime a))) ^^^
  (xtime b ^^^ xtime (xtime b) ^^^ xtime (xtime (xtime b))) ^^^
  (c ^^^ xtime c ^^^ xtime (xtime (xtime c))) ^^^
  (d ^^^ xtime (xtime d) ^^^ xtime (xtime (xtime d)))

def imc2 (a b c d : Nat) : Nat :=
  (a ^^^ xtime (xtime a) ^^^ xtime (xtime (xtime a))) ^^^
  (b ^^^ xtime (xtime (xtime b))) ^^^
  (xtime c ^^^ xtime (xtime c) ^^^ xtime (xtime (xtime c))) ^^^
  (d ^^^ xtime d ^^^ xtime (xtime (xtime d)))

def imc3 (a b c d : Nat) : Nat :=
  (a ^^^ xtime a ^^^ xtime (xtime (xtime a))) ^^^
  (b ^^^ xtime (xtime b) ^^^ xtime (xtime (xtime b))) ^^^
  (c ^^^ xtime (xtime (xtime c))) ^^^
  (xtime d ^^^ xtime (xtime d) ^^^ xtime (xtime (xtime d)))

/-- `AES::inv_mix_columns`, column by column. -/
def inv_mix_columns (s : AESState) : AESState :=
  ⟨imc0 s.s00 s.s10 s.s20 s.s30, imc0 s.s01 s.s11 s.s21 s.s31,
   imc0 s.s02 s.s12 s.s22 s.s32, imc0 s.s03 s.s13 s.s23 s.s33,
   imc1 s.s00 s.s10 s.s20 s.s30, imc1 s.s01 s.s11 s.s21 s.s31,
   imc1 s.s02 s.s12 s.s22 s.s32, imc1 s.s03 s.s13 s.s23 s.s33,
   imc2 s.s00 s.s10 s.s20 s.s30, imc2 s.s01 s.s11 s.s21 s.s31,
   imc2 s.s02 s.s12 s.s22 s.s32, imc2 s.s03 s.s13 s.s23 s.s33,
   imc3 s.s00 s.s10 s.s20 s.s30, imc3 s.s01 s.s11 s.s21 s.s31,
   imc3 s.s02 s.s12 s.s22 s.s32, imc3 s.s03 s.s13 s.s23 s.s33⟩

/-! ## MixColumns inverts: GF(2)-linearity plus a byte-wise check -/

theorem xt2_xor {a b : Nat} (ha : a < 256) (hb : b < 256) :
    xtime (xtime (a ^^^ b)) = xtime (xtime a) ^^^ xtime (xtime b) := by
  rw [xtime_xor ha hb, xtime_xor (xtime_lt a) (xtime_lt b)]

theorem xt3_xor {a b : Nat} (ha : a < 256) (hb : b < 256) :
    xtime (xtime (xtime (a ^^^ b))) =
      xtime (xtime (xtime a)) ^^^ xtime (xtime (xtime b)) := by
  rw [xt2_xor ha hb, xtime_xor (xtime_lt (xtime a)) (xtime_lt (xtime b))]

theorem mc0_lt {a b c d : Nat} (hb : b < 256) (hc : c < 256) (hd : d < 256) :
    mc0 a b c d < 256 :=
  xor_lt_256 (xor_lt_256 (xor_lt_256 (xtime_lt a) (xor_lt_256 (xtime_lt b) hb)) hc) hd

theorem mc1_lt {a b c d : Nat} (ha : a < 256) (hc : c < 256) (hd : d < 256) :
    mc1 a b c d < 256 :=
  xor_lt_256 (xor_lt_256 (xor_lt_256 ha (xtime_lt b)) (xor_lt_256 (xtime_lt c) hc)) hd

theorem mc2_lt {a b c d : Nat} (ha : a < 256) (hb : b < 256) (hd : d < 256) :
    mc2 a b c d < 256 :=
  xor_lt_256 (xor_lt_256 (xor_lt_256 ha hb) (xtime_lt c)) (xor_lt_256 (xtime_lt d) hd)

theorem mc3_lt {a b c d : Nat} (ha : a < 256) (hb : b < 256) (hc : c < 256) :
    mc3 a b c d < 256 :=
  xor_lt_256 (xor_lt_256 (xor_lt_256 (xor_lt_256 (xtime_lt a) ha) hb) hc) (xtime_lt d)

theorem mc0_xor {a b c d a' b' c' d' : Nat} (ha : a < 256) (hb : b < 256)
    (ha' : a' < 256) (hb' : b' < 256) :
    mc0 (a ^^^ a') (b ^^^ b') (c ^^^ c') (d ^^^ d') =
      mc0 a b c d ^^^ mc0 a' b' c' d' := by
  unfold mc0
  rw [xtime_xor ha ha', xtime_xor hb hb']
  simp [Nat.xor_assoc, Nat.xor_comm, xor_left_comm']

theorem mc1_xor {a b c d a' b' c' d' : Nat} (hb : b < 256) (hc : c < 256)
    (hb' : b' < 256) (hc' : c' < 256) :
    mc1 (a ^^^ a') (b ^^^ b') (c ^^^ c') (d ^^^ d') =
      mc1 a b c d ^^^ mc1 a' b' c' d' := by
  unfold mc1
  rw [xtime_xor hb hb', xtime_xor hc hc']
  simp [Nat.xor_assoc, Nat.xor_comm, xor_left_comm']

theorem mc2_xor {a b c d a' b' c' d' : Nat} (hc : c < 256) (hd : d < 256)
    (hc' : c' < 256) (hd' : d' < 256) :
    mc2 (a ^^^ a') (b ^^^ b') (c ^^^ c') (d ^^^ d') =
      mc2 a b c d ^^^ mc2 a' b' c' d' := by
  unfold mc2
  rw [xtime_xor hc hc', xtime_xor hd hd']
  simp [Nat.xor_assoc, Nat.xor_comm, xor_left_comm']

theorem mc3_xor {a b c d a' b' c' d' : Nat} (ha : a < 256) (hd : d < 256)
    (ha' : a' < 256) (hd' : d' < 256) :
    mc3 (a ^^^ a') (b ^^^ b') (c ^^^ c') (d ^^^ d') =
      mc3 a b c d ^^^ mc3 a' b' c' d' := by
  unfold mc3
  rw [xtime_xor ha ha', xtime_xor hd hd']
  simp [Nat.xor_assoc, Nat.xor_comm, xor_left_comm']

theorem imc0_xor {a b c d a' b' c' d' : Nat} (ha : a < 256) (hb : b < 256)
    (hc : c < 256) (hd : d < 256) (ha' : a' < 256) (hb' : b' < 256)
    (hc' : c' < 256) (hd' : d' < 256) :
    imc0 (a ^^^ a') (b ^^^ b') (c ^^^ c') (d ^^^ d') =
      imc0 a b c d ^^^ imc0 a' b' c' d' := by
  unfold imc0
  rw [xt3_xor ha ha', xt2_xor ha ha', xtime_xor ha ha', xt3_xor hb hb',
    xtime_xor hb hb', xt3_xor hc hc', xt2_xor hc hc', xt3_xor hd hd']
  ac_rfl

theorem imc1_xor {a b c d a' b' c' d' : Nat} (ha : a < 256) (hb : b < 256)
    (hc : c < 256) (hd : d < 256) (ha' : a' < 256) (hb' : b' < 256)
    (hc' : c' < 256) (hd' : d' < 256) :
    imc1 (a ^^^ a') (b ^^^ b') (c ^^^ c') (d ^^^ d') =
      imc1 a b c d ^^^ imc1 a' b' c' d' := by
  unfold imc1
  rw [xt3_xor ha ha', xt3_xor hb hb', xt2_xor hb hb', xtime_xor hb hb',
    xt3_xor hc hc', xtime_xor hc hc', xt3_xor hd hd', xt2_xor hd hd']
  ac_rfl

theorem imc2_xor {a b c d a' b' c' d' : Nat} (ha : a < 256) (hb : b < 256)
    (hc : c < 256) (hd : d < 256) (ha' : a' < 256) (hb' : b' < 256)
    (hc' : c' < 256) (hd' : d' < 256) :
    imc2 (a ^^^ a') (b ^^^ b') (c ^^^ c') (d ^^^ d') =
      imc2 a b c d ^^^ imc2 a' b' c' d' := by
  unfold imc2
  rw [xt3_xor ha ha', xt2_xor ha ha', xt3_xor hb hb', xt3_xor hc hc',
    xt2_xor hc hc', xtime_xor hc hc', xt3_xor hd hd', xtime_xor hd hd']
  ac_rfl

theorem imc3_xor {a b c d a' b' c' d' : Nat} (ha : a < 256) (hb : b < 256)
    (hc : c < 256) (hd : d < 256) (ha' : a' < 256) (hb' : b' < 256)
    (hc' : c' < 256) (hd' : d' < 256) :
    imc3 (a ^^^ a') (b ^^^ b') (c ^^^ c') (d ^^^ d') =
      imc3 a b c d ^^^ imc3 a' b' c' d' := by
  unfold imc3
  rw [xt3_xor ha ha', xtime_xor ha ha', xt3_xor hb hb', xt2_xor hb hb',
    xt3_xor hc hc', xt3_xor hd hd', xt2_xor hd hd', xtime_xor hd hd']
  ac_rfl

/-- Splitting the composite of `inv_mix_columns` after `mix_columns` on one
column across an XOR of inputs. -/
theorem imc_mc_xor {a b c d a' b' c' d' : Nat} (ha : a < 256) (hb : b < 256)
    (hc : c < 256) (hd : d < 256) (ha' : a' < 256) (hb' : b' < 256)
    (hc' : c' < 256) (hd' : d' < 256) :
    (imc0 (mc0 (a ^^^ a') (b ^^^ b') (c ^^^ c') (d ^^^ d'))
        (mc1 (a ^^^ a') (b ^^^ b') (c ^^^ c') (d ^^^ d'))
        (mc2 (a ^^^ a') (b ^^^ b') (c ^^^ c') (d ^^^ d'))
        (mc3 (a ^^^ a') (b ^^^ b') (c ^^^ c') (d ^^^ d')) =
      imc0 (mc0 a b c d) (mc1 a b c d) (mc2 a b c d) (mc3 a b c d) ^^^
        imc0 (mc0 a' b' c' d') (mc1 a' b' c' d') (mc2 a' b' c' d') (mc3 a' b' c' d')) ∧
    (imc1 (mc0 (a ^^^ a') (b ^^^ b') (c ^^^ c') (d ^^^ d'))
        (mc1 (a ^^^ a') (b ^^^ b') (c ^^^ c') (d ^^^ d'))
        (mc2 (a ^^^ a') (b ^^^ b') (c ^^^ c') (d ^^^ d'))
        (mc3 (a ^^^ a') (b ^^^ b') (c ^^^ c') (d ^^^ d')) =
      imc1 (mc0 a b c d) (mc1 a b c d) (mc2 a b c d) (mc3 a b c d) ^^^
        imc1 (mc0 a' b' c' d') (mc1 a' b' c' d') (mc2 a' b' c' d') (mc3 a' b' c' d')) ∧
    (imc2 (mc0 (a ^^^ a') (b ^^^ b') (c ^^^ c') (d ^^^ d'))
        (mc1 (a ^^^ a') (b ^^^ b') (c ^^^ c') (d ^^^ d'))
        (mc2 (a ^^^ a') (b ^^^ b') (c ^^^ c') (d ^^^ d'))
        (mc3 (a ^^^ a') (b ^^^ b') (c ^^^ c') (d ^^^ d')) =
      imc2 (mc0 a b c d) (mc1 a b c d) (mc2 a b c d) (mc3 a b c d) ^^^
        imc2 (mc0 a' b' c' d') (mc1 a' b' c' d') (mc2 a' b' c' d') (mc3 a' b' c' d')) ∧
    (imc3 (mc0 (a ^^^ a') (b ^^^ b') (c ^^^ c') (d ^^^ d'))
        (mc1 (a ^^^ a') (b ^^^ b') (c ^^^ c') (d ^^^ d'))
        (mc2 (a ^^^ a') (b ^^^ b') (c ^^^ c') (d ^^^ d'))
        (mc3 (a ^^^ a') (b ^^^ b') (c ^^^ c') (d ^^^ d')) =
      imc3 (mc0 a b c d) (mc1 a b c d) (mc2 a b c d) (mc3 a b c d) ^^^
        imc3 (mc0 a' b' c' d') (mc1 a' b' c' d') (mc2 a' b' c' d') (mc3 a' b' c' d')) := by
  rw [mc0_xor ha hb ha' hb', mc1_xor hb hc hb' hc', mc2_xor hc hd hc' hd',
    mc3_xor ha hd ha' hd']
  have h0 := mc0_lt (a := a) hb hc hd
  have h1 := mc1_lt (b := b) ha hc hd
  have h2 := mc2_lt (c := c) ha hb hd
  have h3 := mc3_lt (d := d) ha hb hc
  have h0' := mc0_lt (a := a') hb' hc' hd'
  have h1' := mc1_lt (b := b') ha' hc' hd'
  have h2' := mc2_lt (c := c') ha' hb' hd'
  have h3' := mc3_lt (d := d') ha' hb' hc'
  exact ⟨imc0_xor h0 h1 h2 h3 h0' h1' h2' h3', imc1_xor h0 h1 h2 h3 h0' h1' h2' h3',
    imc2_xor h0 h1 h2 h3 h0' h1' h2' h3', imc3_xor h0 h1 h2 h3 h0' h1' h2' h3'⟩

/-- Byte-wise check of the inverse property on the first input variable. -/
theorem imc_mc_var0 {x : Nat} (hx : x < 256) :
    imc0 (mc0 x 0 0 0) (mc1 x 0 0 0) (mc2 x 0 0 0) (mc3 x 0 0 0) = x ∧
    imc1 (mc0 x 0 0 0) (mc1 x 0 0 0) (mc2 x 0 0 0) (mc3 x 0 0 0) = 0 ∧
    imc2 (mc0 x 0 0 0) (mc1 x 0 0 0) (mc2 x 0 0 0) (mc3 x 0 0 0) = 0 ∧
    imc3 (mc0 x 0 0 0) (mc1 x 0 0 0) (mc2 x 0 0 0) (mc3 x 0 0 0) = 0 := by
  revert hx
  have h : ∀ v : Fin 256,
      imc0 (mc0 v.val 0 0 0) (mc1 v.val 0 0 0) (mc2 v.val 0 0 0) (mc3 v.val 0 0 0) = v.val ∧
      imc1 (mc0 v.val 0 0 0) (mc1 v.val 0 0 0) (mc2 v.val 0 0 0) (mc3 v.val 0 0 0) = 0 ∧
      imc2 (mc0 v.val 0 0 0) (mc1 v.val 0 0 0) (mc2 v.val 0 0 0) (mc3 v.val 0 0 0) = 0 ∧
      imc3 (mc0 v.val 0 0 0) (mc1 v.val 0 0 0) (mc2 v.val 0 0 0) (mc3 v.val 0 0 0) = 0 := by
    decide
  intro hx
  exact h ⟨x, hx⟩

/-- Byte-wise check of the inverse property on the second input variable. -/
theorem imc_mc_var1 {x : Nat} (hx : x < 256) :
    imc0 (mc0 0 x 0 0) (mc1 0 x 0 0) (mc2 0 x 0 0) (mc3 0 x 0 0) = 0 ∧
    imc1 (mc0 0 x 0 0) (mc1 0 x 0 0) (mc2 0 x 0 0) (mc3 0 x 0 0) = x ∧
    imc2 (mc0 0 x 0 0) (mc1 0 x 0 0) (mc2 0 x 0 0) (mc3 0 x 0 0) = 0 ∧
    imc3 (mc0 0 x 0 0) (mc1 0 x 0 0) (mc2 0 x 0 0) (mc3 0 x 0 0) = 0 := by
  revert hx
  have h : ∀ v : Fin 256,
      imc0 (mc0 0 v.val 0 0) (mc1 0 v.val 0 0) (mc2 0 v.val 0 0) (mc3 0 v.val 0 0) = 0 ∧
      imc1 (mc0 0 v.val 0 0) (mc1 0 v.val 0 0) (mc2 0 v.val 0 0) (mc3 0 v.val 0 0) = v.val ∧
      imc2 (mc0 0 v.val 0 0) (mc1 0 v.val 0 0) (mc2 0 v.val 0 0) (mc3 0 v.val 0 0) = 0 ∧
      imc3 (mc0 0 v.val 0 0) (mc1 0 v.val 0 0) (mc2 0 v.val 0 0) (mc3 0 v.val 0 0) = 0 := by
    decide
  intro hx
  exact h ⟨x, hx⟩

/-- Byte-wise check of the inverse property on the third input variable. -/
theorem imc_mc_var2 {x : Nat} (hx : x < 256) :
    imc0 (mc0 0 0 x 0) (mc1 0 0 x 0) (mc2 0 0 x 0) (mc3 0 0 x 0) = 0 ∧
    imc1 (mc0 0 0 x 0) (mc1 0 0 x 0) (mc2 0 0 x 0) (mc3 0 0 x 0) = 0 ∧
    imc2 (mc0 0 0 x 0) (mc1 0 0 x 0) (mc2 0 0 x 0) (mc3 0 0 x 0) = x ∧
    imc3 (mc0 0 0 x 0) (mc1 0 0 x 0) (mc2 0 0 x 0) (mc3 0 0 x 0) = 0 := by
  revert hx
  have h : ∀ v : Fin 256,
      imc0 (mc0 0 0 v.val 0) (mc1 0 0 v.val 0) (mc2 0 0 v.val 0) (mc3 0 0 v.val 0) = 0 ∧
      imc1 (mc0 0 0 v.val 0) (mc1 0 0 v.val 0) (mc2 0 0 v.val 0) (mc3 0 0 v.val 0) = 0 ∧
      imc2 (mc0 0 0 v.val 0) (mc1 0 0 v.val 0) (mc2 0 0 v.val 0) (mc3 0 0 v.val 0) = v.val ∧
      imc3 (mc0 0 0 v.val 0) (mc1 0 0 v.val 0) (mc2 0 0 v.val 0) (mc3 0 0 v.val 0) = 0 := by
    decide
  intro hx
  exact h ⟨x, hx⟩

/-- Byte-wise check of the inverse property on the fourth input variable. -/
theorem imc_mc_var3 {x : Nat} (hx : x < 256) :
    imc0 (mc0 0 0 0 x) (mc1 0 0 0 x) (mc2 0 0 0 x) (mc3 0 0 0 x) = 0 ∧
    imc1 (mc0 0 0 0 x) (mc1 0 0 0 x) (mc2 0 0 0 x) (mc3 0 0 0 x) = 0 ∧
    imc2 (mc0 0 0 0 x) (mc1 0 0 0 x) (mc2 0 0 0 x) (mc3 0 0 0 x) = 0 ∧
    imc3 (mc0 0 0 0 x) (mc1 0 0 0 x) (mc2 0 0 0 x) (mc3 0 0 0 x) = x := by
  revert hx
  have h : ∀ v : Fin 256,
      imc0 (mc0 0 0 0 v.val) (mc1 0 0 0 v.val) (mc2 0 0 0 v.val) (mc3 0 0 0 v.val) = 0 ∧
      imc1 (mc0 0 0 0 v.val) (mc1 0 0 0 v.val) (mc2 0 0 0 v.val) (mc3 0 0 0 v.val) = 0 ∧
      imc2 (mc0 0 0 0 v.val) (mc1 0 0 0 v.val) (mc2 0 0 0 v.val) (mc3 0 0 0 v.val) = 0 ∧
      imc3 (mc0 0 0 0 v.val) (mc1 0 0 0 v.val) (mc2 0 0 0 v.val) (mc3 0 0 0 v.val) = v.val := by
    decide
  intro hx
  exact h ⟨x, hx⟩

/-- On one column, the inverse MixColumns formulas undo the forward ones. -/
theorem imc_mc_col {a b c d : Nat} (ha : a < 256) (hb : b < 256) (hc : c < 256)
    (hd : d < 256) :
    imc0 (mc0 a b c d) (mc1 a b c d) (mc2 a b c d) (mc3 a b c d) = a ∧
    imc1 (mc0 a b c d) (mc1 a b c d) (mc2 a b c d) (mc3 a b c d) = b ∧
    imc2 (mc0 a b c d) (mc1 a b c d) (mc2 a b c d) (mc3 a b c d) = c ∧
    imc3 (mc0 a b c d) (mc1 a b c d) (mc2 a b c d) (mc3 a b c d) = d := by
  have hz : (0 : Nat) < 256 := by norm_num
  have h1 := imc_mc_xor ha hz hz hz hz hb hc hd
  simp only [Nat.xor_zero, Nat.zero_xor] at h1
  have h2 := imc_mc_xor hz hb hz hz hz hz hc hd
  simp only [Nat.xor_zero, Nat.zero_xor] at h2
  have h3 := imc_mc_xor hz hz hc hz hz hz hz hd
  simp only [Nat.xor_zero, Nat.zero_xor] at h3
  obtain ⟨e10, e11, e12, e13⟩ := h1
  obtain ⟨e20, e21, e22, e23⟩ := h2
  obtain ⟨e30, e31, e32, e33⟩ := h3
  obtain ⟨v00, v01, v02, v03⟩ := imc_mc_var0 ha
  obtain ⟨v10, v11, v12, v13⟩ := imc_mc_var1 hb
  obtain ⟨v20, v21, v22, v23⟩ := imc_mc_var2 hc
  obtain ⟨v30, v31, v32, v33⟩ := imc_mc_var3 hd
  refine ⟨?_, ?_, ?_, ?_⟩
  · rw [e10, e20, e30, v00, v10, v20, v30]
    simp
  · rw [e11, e21, e31, v01, v11, v21, v31]
    simp
  · rw [e12, e22, e32, v02, v12, v22, v32]
    simp
  · rw [e13, e23, e33, v03, v13, v23, v33]
    simp

/-- `inv_mix_columns` undoes `mix_columns` on every in-range state. -/
theorem inv_mix_columns_mix_columns {s : AESState} (hs : StateBounded s) :
    inv_mix_columns (mix_columns s) = s := by
  obtain ⟨h00, h01, h02, h03, h10, h11, h12, h13,
    h20, h21, h22, h23, h30, h31, h32, h33⟩ := hs
  obtain ⟨c00, c01, c02, c03⟩ := imc_mc_col h00 h10 h20 h30
  obtain ⟨c10, c11, c12, c13⟩ := imc_mc_col h01 h11 h21 h31
  obtain ⟨c20, c21, c22, c23⟩ := imc_mc_col h02 h12 h22 h32
  obtain ⟨c30, c31, c32, c33⟩ := imc_mc_col h03 h13 h23 h33
  cases s
  simp only [mix_columns, inv_mix_columns] at *
  simp_all

/-! ## Inverses and bounds for the remaining primitives -/

theorem inv_shift_rows_shift_rows (s : AESState) :
    inv_shift_rows (shift_rows s) = s := by
  cases s
  rfl

theorem inv_sub_bytes_sub_bytes {s : AESState} (hs : StateBounded s) :
    inv_sub_bytes (sub_bytes s) = s := by
  obtain ⟨h00, h01, h02, h03, h10, h11, h12, h13,
    h20, h21, h22, h23, h30, h31, h32, h33⟩ := hs
  cases s
  simp only [sub_bytes, inv_sub_bytes, AESState.mk.injEq]
  exact ⟨invSbox_sbox h00, invSbox_sbox h01, invSbox_sbox h02, invSbox_sbox h03,
    invSbox_sbox h10, invSbox_sbox h11, invSbox_sbox h12, invSbox_sbox h13,
    invSbox_sbox h20, invSbox_sbox h21, invSbox_sbox h22, invSbox_sbox h23,
    invSbox_sbox h30, invSbox_sbox h31, invSbox_sbox h32, invSbox_sbox h33⟩

theorem add_round_key_add_round_key (s : AESState) (k0 k1 k2 k3 : Word) :
    add_round_key (add_round_key s k0 k1 k2 k3) k0 k1 k2 k3 = s := by
  cases s
  simp only [add_round_key, AESState.mk.injEq]
  refine ⟨?_, ?_, ?_, ?_, ?_, ?_, ?_, ?_, ?_, ?_, ?_, ?_, ?_, ?_, ?_, ?_⟩ <;>
    exact Nat.xor_cancel_right _ _

theorem sub_bytes_bounded {s : AESState} (hs : StateBounded s) :
    StateBounded (sub_bytes s) := by
  obtain ⟨h00, h01, h02, h03, h10, h11, h12, h13,
    h20, h21, h22, h23, h30, h31, h32, h33⟩ := hs
  exact ⟨sboxByte_lt h00, sboxByte_lt h01, sboxByte_lt h02, sboxByte_lt h03,
    sboxByte_lt h10, sboxByte_lt h11, sboxByte_lt h12, sboxByte_lt h13,
    sboxByte_lt h20, sboxByte_lt h21, sboxByte_lt h22, sboxByte_lt h23,
    sboxByte_lt h30, sboxByte_lt h31, sboxByte_lt h32, sboxByte_lt h33⟩

theorem shift_rows_bounded {s : AESState} (hs : StateBounded s) :
    StateBounded (shift_rows s) := by
  obtain ⟨h00, h01, h02, h03, h10, h11, h12, h13,
    h20, h21, h22, h23, h30, h31, h32, h33⟩ := hs
  exact ⟨h00, h01, h02, h03, h11, h12, h13, h10,
    h22, h23, h20, h21, h33, h30, h31, h32⟩

theorem mix_columns_bounded {s : AESState} (hs : StateBounded s) :
    StateBounded (mix_columns s) := by
  obtain ⟨h00, h01, h02, h03, h10, h11, h12, h13,
    h20, h21, h22, h23, h30, h31, h32, h33⟩ := hs
  exact ⟨mc0_lt h10 h20 h30, mc0_lt h11 h21 h31, mc0_lt h12 h22 h32, mc0_lt h13 h23 h33,
    mc1_lt h00 h20 h30, mc1_lt h01 h21 h31, mc1_lt h02 h22 h32, mc1_lt h03 h23 h33,
    mc2_lt h00 h10 h30, mc2_lt h01 h11 h31, mc2_lt h02 h12 h32, mc2_lt h03 h13 h33,
    mc3_lt h00 h10 h20, mc3_lt h01 h11 h21, mc3_lt h02 h12 h22, mc3_lt h03 h13 h23⟩

theorem add_round_key_bounded {s : AESState} {k0 k1 k2 k3 : Word}
    (hs : StateBounded s) (h0 : WordBounded k0) (h1 : WordBounded k1)
    (h2 : WordBounded k2) (h3 : WordBounded k3) :
    StateBounded (add_round_key s k0 k1 k2 k3) := by
  obtain ⟨h00, h01, h02, h03, h10, h11, h12, h13,
    h20, h21, h22, h23, h30, h31, h32, h33⟩ := hs
  obtain ⟨k00, k01, k02, k03⟩ := h0
  obtain ⟨k10, k11, k12, k13⟩ := h1
  obtain ⟨k20, k21, k22, k23⟩ := h2
  obtain ⟨k30, k31, k32, k33⟩ := h3
  exact ⟨xor_lt_256 h00 k00, xor_lt_256 h01 k10, xor_lt_256 h02 k20, xor_lt_256 h03 k30,
    xor_lt_256 h10 k01, xor_lt_256 h11 k11, xor_lt_256 h12 k21, xor_lt_256 h13 k31,
    xor_lt_256 h20 k02, xor_lt_256 h21 k12, xor_lt_256 h22 k22, xor_lt_256 h23 k32,
    xor_lt_256 h30 k03, xor_lt_256 h31 k13, xor_lt_256 h32 k23, xor_lt_256 h33 k33⟩

/-! ## Key expansion (`aes.rs`, `impl AES` key expansion block) -/

/-- `AES::rot_word`: rotate the word left by one byte. -/
def rot_word (w : Word) : Word := ⟨w.b1, w.b2, w.b3, w.b0⟩

/-- `AES::sub_word`: substitute each byte of the word through the S-Box. -/
def sub_word (w : Word) : Word :=
  ⟨sboxByte w.b0, sboxByte w.b1, sboxByte w.b2, sboxByte w.b3⟩

/-- Bytewise XOR of two schedule words. -/
def wordXor (v w : Word) : Word :=
  ⟨v.b0 ^^^ w.b0, v.b1 ^^^ w.b1, v.b2 ^^^ w.b2, v.b3 ^^^ w.b3⟩

/-- The `AESKey` enum from `aes.rs`: a tagged key of 16, 24 or 32 bytes.
The fixed array lengths of the Rust type become side conditions (`KeyValid`). -/
inductive AESKey where
  | AES128 (key_seq : List Nat)
  | AES192 (key_seq : List Nat)
  | AES256 (key_seq : List Nat)
  deriving DecidableEq, Repr

/-- The key bytes have the length forced by the Rust array type, and are bytes. -/
def KeyValid : AESKey → Prop
  | .AES128 k => k.length = 16 ∧ ∀ b ∈ k, b < 256
  | .AES192 k => k.length = 24 ∧ ∀ b ∈ k, b < 256
  | .AES256 k => k.length = 32 ∧ ∀ b ∈ k, b < 256

instance (key : AESKey) : Decidable (KeyValid key) := by
  cases key <;> simp only [KeyValid] <;> infer_instance

/-- The per-variant round count used by `encrypt`/`decrypt` (10/12/14). -/
def num_rounds : AESKey → Nat
  | .AES128 _ => 10
  | .AES192 _ => 12
  | .AES256 _ => 14

/-- `nk` in `AES::key_expansion` (4/6/8). -/
def nk : AESKey → Nat
  | .AES128 _ => 4
  | .AES192 _ => 6
  | .AES256 _ => 8

/-- `num_of_words` in `AES::key_expansion`: `4 * (1 + rounds)`. -/
def num_of_words (key : AESKey) : Nat := 4 * (1 + num_rounds key)

/-- The initial schedule words: key bytes chunked 4 at a time, in order
(the three unrolled `step_by(4)` loops of `AES::key_expansion`). -/
def initWords : AESKey → List Word
  | .AES128 k =>
    [⟨k.getD 0 0, k.getD 1 0, k.getD 2 0, k.getD 3 0⟩,
     ⟨k.getD 4 0, k.getD 5 0, k.getD 6 0, k.getD 7 0⟩,
     ⟨k.getD 8 0, k.getD 9 0, k.getD 10 0, k.getD 11 0⟩,
     ⟨k.getD 12 0, k.getD 13 0, k.getD 14 0, k.getD 15 0⟩]
  | .AES192 k =>
    [⟨k.getD 0 0, k.getD 1 0, k.getD 2 0, k.getD 3 0⟩,
     ⟨k.getD 4 0, k.getD 5 0, k.getD 6 0, k.getD 7 0⟩,
     ⟨k.getD 8 0, k.getD 9 0, k.getD 10 0, k.getD 11 0⟩,
     ⟨k.getD 12 0, k.getD 13 0, k.getD 14 0, k.getD 15 0⟩,
     ⟨k.getD 16 0, k.getD 17 0, k.getD 18 0, k.getD 19 0⟩,
     ⟨k.getD 20 0, k.getD 21 0, k.getD 22 0, k.getD 23 0⟩]
  | .AES256 k =>
    [⟨k.getD 0 0, k.getD 1 0, k.getD 2 0, k.getD 3 0⟩,
     ⟨k.getD 4 0, k.getD 5 0, k.getD 6 0, k.getD 7 0⟩,
     ⟨k.getD 8 0, k.getD 9 0, k.getD 10 0, k.getD 11 0⟩,
     ⟨k.getD 12 0, k.getD 13 0, k.getD 14 0, k.getD 15 0⟩,
     ⟨k.getD 16 0, k.getD 17 0, k.getD 18 0, k.getD 19 0⟩,
     ⟨k.getD 20 0, k.getD 21 0, k.getD 22 0, k.getD 23 0⟩,
     ⟨k.getD 24 0, k.getD 25 0, k.getD 26 0, k.getD 27 0⟩,
     ⟨k.getD 28 0, k.getD 29 0, k.getD 30 0, k.getD 31 0⟩]

/-- The conditional transform applied to `temp = round_keys[i - 1]` in the
expansion loop: rotate + substitute + round-constant XOR when `i mod nk = 0`,
substitution alone when `nk = 8` and `i mod nk = 4`, identity otherwise.
The round constant byte is `(R_CON[i / nk - 1] >> 24) as u8`. -/
def tempTransform (nkv i : Nat) (temp : Word) : Word :=
  if i % nkv = 0 then
    let t := sub_word (rot_word temp)
    ⟨t.b0 ^^^ (R_CON.getD (i / nkv - 1) 0 >>> 24) % 256, t.b1, t.b2, t.b3⟩
  else if nkv = 8 ∧ i % nkv = 4 then
    sub_word temp
  else
    temp

/-- One iteration of the expansion loop, producing word `i` from the first
`i` words: `round_keys[i - nk] XOR temp` with `temp` from `round_keys[i-1]`. -/
def expandStep (nkv : Nat) (ks : List Word) (i : Nat) : Word :=
  wordXor (ks.getD (i - nkv) zeroWord) (tempTransform nkv i (ks.getD (i - 1) zeroWord))

/-- The expansion loop `for i in round_keys.len()..num_of_words`, with the
remaining iteration count as fuel (the list length plays the role of `i`). -/
def expandLoop (nkv : Nat) : Nat → List Word → List Word
  | 0, ks => ks
  | fuel + 1, ks => expandLoop nkv fuel (ks ++ [expandStep nkv ks ks.length])

/-- `AES::key_expansion`. -/
def key_expansion (key : AESKey) : List Word :=
  expandLoop (nk key) (num_of_words key - (initWords key).length) (initWords key)

/-! ## The block cipher (`AES::encrypt`, `AES::decrypt`) -/

/-- Loading a 16-byte block into the state, column-major:
`state[r][c] = block[r + c * 4]`. -/
def to_state (block : List Nat) : AESState :=
  ⟨block.getD 0 0, block.getD 4 0, block.getD 8 0, block.getD 12 0,
   block.getD 1 0, block.getD 5 0, block.getD 9 0, block.getD 13 0,
   block.getD 2 0, block.getD 6 0, block.getD 10 0, block.getD 14 0,
   block.getD 3 0, block.getD 7 0, block.getD 11 0, block.getD 15 0⟩

/-- Serializing the state back to a block: `out_block[r + c * 4] = state[r][c]`. -/
def from_state (s : AESState) : List Nat :=
  [s.s00, s.s10, s.s20, s.s30, s.s01, s.s11, s.s21, s.s31,
   s.s02, s.s12, s.s22, s.s32, s.s03, s.s13, s.s23, s.s33]

/-- `add_round_key` with the schedule slice `round_keys[j..j + 4]`. -/
def arkAt (ks : List Word) (j : Nat) (s : AESState) : AESState :=
  add_round_key s (ks.getD j zeroWord) (ks.getD (j + 1) zeroWord)
    (ks.getD (j + 2) zeroWord) (ks.getD (j + 3) zeroWord)

/-- The main encryption loop of `AES::encrypt`:
`encRounds ks n s` runs rounds `1` to `n` in ascending order, each round
doing SubBytes, ShiftRows, MixColumns, AddRoundKey with words
`[round * 4..(round + 1) * 4]`. -/
def encRounds (ks : List Word) : Nat → AESState → AESState
  | 0, s => s
  | n + 1, s =>
    arkAt ks ((n + 1) * 4) (mix_columns (shift_rows (sub_bytes (encRounds ks n s))))

/-- The main decryption loop of `AES::decrypt`:
`decRounds ks n s` runs rounds `n` down to `1`, each round doing
InvShiftRows, InvSubBytes, AddRoundKey with words
`[round * 4..(round + 1) * 4]`, InvMixColumns. -/
def decRounds (ks : List Word) : Nat → AESState → AESState
  | 0, s => s
  | n + 1, s =>
    decRounds ks n
      (inv_mix_columns (arkAt ks ((n + 1) * 4) (inv_sub_bytes (inv_shift_rows s))))

/-- `AES::encrypt` on a 16-byte block. -/
def encrypt (key : AESKey) (block : List Nat) : List Nat :=
  let ks := key_expansion key
  from_state (arkAt ks (ks.length - 4) (shift_rows (sub_bytes
    (encRounds ks (num_rounds key - 1) (arkAt ks 0 (to_state block))))))

/-- `AES::decrypt` on a 16-byte block. -/
def decrypt (key : AESKey) (block : List Nat) : List Nat :=
  let ks := key_expansion key
  from_state (arkAt ks 0 (inv_sub_bytes (inv_shift_rows
    (decRounds ks (num_rounds key - 1) (arkAt ks (ks.length - 4) (to_state block))))))

/-! ## Boundedness of the schedule and the loop states -/

/-- Every word of the schedule list is byte-bounded. -/
def KsBounded (ks : List Word) : Prop := ∀ w ∈ ks, WordBounded w

theorem getD_byte_lt {l : List Nat} (h : ∀ x ∈ l, x < 256) (i : Nat) :
    l.getD i 0 < 256 := by
  induction l generalizing i with
  | nil => simp [List.getD]
  | cons a t ih =>
    cases i with
    | zero =>
      simpa [List.getD] using h a (List.mem_cons_self a t)
    | succ j =>
      simp only [List.getD_cons_succ]
      exact ih (fun x hx => h x (List.mem_cons_of_mem a hx)) j

theorem ksGetD_bounded {ks : List Word} (h : KsBounded ks) (j : Nat) :
    WordBounded (ks.getD j zeroWord) := by
  induction ks generalizing j with
  | nil =>
    simp only [List.getD]
    exact (by decide : WordBounded zeroWord)
  | cons w t ih =>
    cases j with
    | zero => simpa [List.getD] using h w (List.mem_cons_self w t)
    | succ j =>
      simp only [List.getD_cons_succ]
      exact ih (fun x hx => h x (List.mem_cons_of_mem w hx)) j

theorem arkAt_bounded {ks : List Word} {s : AESState} (hs : StateBounded s)
    (hks : KsBounded ks) (j : Nat) : StateBounded (arkAt ks j s) :=
  add_round_key_bounded hs (ksGetD_bounded hks j) (ksGetD_bounded hks (j + 1))
    (ksGetD_bounded hks (j + 2)) (ksGetD_bounded hks (j + 3))

theorem encRounds_bounded {ks : List Word} {s : AESState} (hs : StateBounded s)
    (hks : KsBounded ks) (n : Nat) : StateBounded (encRounds ks n s) := by
  induction n with
  | zero => exact hs
  | succ n ih =>
    exact arkAt_bounded
      (mix_columns_bounded (shift_rows_bounded (sub_bytes_bounded ih))) hks _

theorem arkAt_arkAt (ks : List Word) (j : Nat) (s : AESState) :
    arkAt ks j (arkAt ks j s) = s :=
  add_round_key_add_round_key s _ _ _ _

/-- The decryption loop undoes the encryption loop (modulo the trailing
SubBytes + ShiftRows that the surrounding code applies). -/
theorem decRounds_encRounds {ks : List Word} (hks : KsBounded ks) (n : Nat)
    {s : AESState} (hs : StateBounded s) :
    decRounds ks n (shift_rows (sub_bytes (encRounds ks n s))) =
      shift_rows (sub_bytes s) := by
  induction n with
  | zero => rfl
  | succ n ih =>
    show decRounds ks n _ = _
    rw [inv_shift_rows_shift_rows,
      inv_sub_bytes_sub_bytes (encRounds_bounded hs hks (n + 1)),
      show encRounds ks (n + 1) s =
        arkAt ks ((n + 1) * 4) (mix_columns (shift_rows (sub_bytes (encRounds ks n s)))) from rfl,
      arkAt_arkAt,
      inv_mix_columns_mix_columns
        (shift_rows_bounded (sub_bytes_bounded (encRounds_bounded hs hks n)))]
    exact ih

/-! ## Block/state conversion -/

theorem to_state_from_state (s : AESState) : to_state (from_state s) = s := by
  cases s
  rfl

theorem from_state_to_state {b : List Nat} (h : b.length = 16) :
    from_state (to_state b) = b := by
  rcases b with _ | ⟨x0, b⟩; · simp at h
  rcases b with _ | ⟨x1, b⟩; · simp at h
  rcases b with _ | ⟨x2, b⟩; · simp at h
  rcases b with _ | ⟨x3, b⟩; · simp at h
  rcases b with _ | ⟨x4, b⟩; · simp at h
  rcases b with _ | ⟨x5, b⟩; · simp at h
  rcases b with _ | ⟨x6, b⟩; · simp at h
  rcases b with _ | ⟨x7, b⟩; · simp at h
  rcases b with _ | ⟨x8, b⟩; · simp at h
  rcases b with _ | ⟨x9, b⟩; · simp at h
  rcases b with _ | ⟨x10, b⟩; · simp at h
  rcases b with _ | ⟨x11, b⟩; · simp at h
  rcases b with _ | ⟨x12, b⟩; · simp at h
  rcases b with _ | ⟨x13, b⟩; · simp at h
  rcases b with _ | ⟨x14, b⟩; · simp at h
  rcases b with _ | ⟨x15, b⟩; · simp at h
  rcases b with _ | ⟨x16, b⟩
  · rfl
  · simp at h

theorem to_state_bounded {b : List Nat} (h : ∀ x ∈ b, x < 256) :
    StateBounded (to_state b) :=
  ⟨getD_byte_lt h 0, getD_byte_lt h 4, getD_byte_lt h 8, getD_byte_lt h 12,
   getD_byte_lt h 1, getD_byte_lt h 5, getD_byte_lt h 9, getD_byte_lt h 13,
   getD_byte_lt h 2, getD_byte_lt h 6, getD_byte_lt h 10, getD_byte_lt h 14,
   getD_byte_lt h 3, getD_byte_lt h 7, getD_byte_lt h 11, getD_byte_lt h 15⟩

/-! ## Boundedness of the expanded key schedule -/

theorem rot_word_bounded {w : Word} (h : WordBounded w) : WordBounded (rot_word w) :=
  ⟨h.2.1, h.2.2.1, h.2.2.2, h.1⟩

theorem sub_word_bounded {w : Word} (h : WordBounded w) : WordBounded (sub_word w) :=
  ⟨sboxByte_lt h.1, sboxByte_lt h.2.1, sboxByte_lt h.2.2.1, sboxByte_lt h.2.2.2⟩

theorem wordXor_bounded {v w : Word} (hv : WordBounded v) (hw : WordBounded w) :
    WordBounded (wordXor v w) :=
  ⟨xor_lt_256 hv.1 hw.1, xor_lt_256 hv.2.1 hw.2.1,
   xor_lt_256 hv.2.2.1 hw.2.2.1, xor_lt_256 hv.2.2.2 hw.2.2.2⟩

theorem tempTransform_bounded {w : Word} (h : WordBounded w) (nkv i : Nat) :
    WordBounded (tempTransform nkv i w) := by
  unfold tempTransform
  split
  · have hs := sub_word_bounded (rot_word_bounded h)
    exact ⟨xor_lt_256 hs.1 (Nat.mod_lt _ (by norm_num)), hs.2.1, hs.2.2.1, hs.2.2.2⟩
  · split
    · exact sub_word_bounded h
    · exact h

theorem expandStep_bounded {ks : List Word} (hks : KsBounded ks) (nkv i : Nat) :
    WordBounded (expandStep nkv ks i) :=
  wordXor_bounded (ksGetD_bounded hks _)
    (tempTransform_bounded (ksGetD_bounded hks _) nkv i)

theorem expandLoop_bounded {nkv : Nat} (fuel : Nat) {ks : List Word}
    (hks : KsBounded ks) : KsBounded (expandLoop nkv fuel ks) := by
  induction fuel generalizing ks with
  | zero => exact hks
  | succ fuel ih =>
    refine ih ?_
    intro w hw
    rcases List.mem_append.mp hw with hw | hw
    · exact hks w hw
    · rcases List.mem_singleton.mp hw with rfl
      exact expandStep_bounded hks nkv ks.length

theorem initWords_bounded {key : AESKey} (h : KeyValid key) :
    KsBounded (initWords key) := by
  cases key <;>
    obtain ⟨-, hb⟩ := h <;>
    intro w hw <;>
    simp only [initWords, List.mem_cons, List.not_mem_nil, or_false] at hw <;>
    rcases hw with rfl | rfl | rfl | rfl | rfl | rfl | rfl | rfl <;>
    exact ⟨getD_byte_lt hb _, getD_byte_lt hb _, getD_byte_lt hb _, getD_byte_lt hb _⟩

theorem key_expansion_bounded {key : AESKey} (h : KeyValid key) :
    KsBounded (key_expansion key) :=
  expandLoop_bounded _ (initWords_bounded h)

/-! ## Claim theorems -/

/-- C1: For every key of each of the three sizes (16, 24, or 32 bytes) and
every 16-byte block `b`, decrypting the encryption of `b` with the same
cipher instance returns `b`: `decrypt (encrypt b) = b`. -/
theorem decrypt_encrypt_roundtrip (key : AESKey) (block : List Nat)
    (hk : KeyValid key) (hlen : block.length = 16) (hb : ∀ x ∈ block, x < 256) :
    decrypt key (encrypt key block) = block := by
  have hks : KsBounded (key_expansion key) := key_expansion_bounded hk
  have hs0 : StateBounded (arkAt (key_expansion key) 0 (to_state block)) :=
    arkAt_bounded (to_state_bounded hb) hks 0
  simp only [encrypt, decrypt]
  rw [to_state_from_state, arkAt_arkAt,
    decRounds_encRounds hks _ hs0,
    inv_shift_rows_shift_rows, inv_sub_bytes_sub_bytes hs0,
    arkAt_arkAt, from_state_to_state hlen]

/-- Witness for C1 at the AES-128 key of the crate's own key-expansion test
and a concrete block. -/
theorem decrypt_encrypt_roundtrip_witness :
    KeyValid (AESKey.AES128
      [0x2b, 0x7e, 0x15, 0x16, 0x28, 0xae, 0xd2, 0xa6,
       0xab, 0xf7, 0x15, 0x88, 0x09, 0xcf, 0x4f, 0x3c]) ∧
    ([1, 2, 3, 4, 5, 6, 7, 8, 9, 10, 11, 12, 13, 14, 15, 16] : List Nat).length = 16 ∧
    (∀ x ∈ ([1, 2, 3, 4, 5, 6, 7, 8, 9, 10, 11, 12, 13, 14, 15, 16] : List Nat), x < 256) ∧
    decrypt (AESKey.AES128
      [0x2b, 0x7e, 0x15, 0x16, 0x28, 0xae, 0xd2, 0xa6,
       0xab, 0xf7, 0x15, 0x88, 0x09, 0xcf, 0x4f, 0x3c])
      (encrypt (AESKey.AES128
        [0x2b, 0x7e, 0x15, 0x16, 0x28, 0xae, 0xd2, 0xa6,
         0xab, 0xf7, 0x15, 0x88, 0x09, 0xcf, 0x4f, 0x3c])
        [1, 2, 3, 4, 5, 6, 7, 8, 9, 10, 11, 12, 13, 14, 15, 16]) =
      [1, 2, 3, 4, 5, 6, 7, 8, 9, 10, 11, 12, 13, 14, 15, 16] :=
  ⟨by decide, rfl, by decide,
    decrypt_encrypt_roundtrip _ _ (by decide) rfl (by decide)⟩

/-! ## Structure of the expansion loop (for C2) -/

theorem expandLoop_length (nkv fuel : Nat) (ks : List Word) :
    (expandLoop nkv fuel ks).length = ks.length + fuel := by
  induction fuel generalizing ks with
  | zero => rfl
  | succ fuel ih =>
    show (expandLoop nkv fuel (ks ++ [expandStep nkv ks ks.length])).length = _
    rw [ih]
    simp
    omega

theorem expandLoop_getD_lt (nkv fuel : Nat) {l : List Word} {j : Nat}
    (hj : j < l.length) :
    (expandLoop nkv fuel l).getD j zeroWord = l.getD j zeroWord := by
  induction fuel generalizing l with
  | zero => rfl
  | succ fuel ih =>
    show (expandLoop nkv fuel (l ++ [expandStep nkv l l.length])).getD j zeroWord = _
    rw [ih (by simp; omega), List.getD_append _ _ _ _ hj]

theorem getD_append_len (l : List Word) (x : Word) :
    (l ++ [x]).getD l.length zeroWord = x := by
  rw [List.getD_append_right _ _ _ _ (Nat.le_refl _), Nat.sub_self]
  rfl

/-- Every word produced by the expansion loop satisfies the schedule
recurrence `word[i] = word[i - nk] XOR temp(word[i - 1])`. -/
theorem expandLoop_getD_ge (nkv : Nat) (hnk : 1 ≤ nkv) (fuel : Nat) :
    ∀ {l : List Word} {i : Nat}, 1 ≤ l.length → l.length ≤ i →
      i < l.length + fuel →
      (expandLoop nkv fuel l).getD i zeroWord =
        wordXor ((expandLoop nkv fuel l).getD (i - nkv) zeroWord)
          (tempTransform nkv i ((expandLoop nkv fuel l).getD (i - 1) zeroWord)) := by
  induction fuel with
  | zero =>
    intro ks i h1 h2 h3
    omega
  | succ fuel ih =>
    intro ks i h1 h2 h3
    show (expandLoop nkv fuel (ks ++ [expandStep nkv ks ks.length])).getD i zeroWord =
      wordXor
        ((expandLoop nkv fuel (ks ++ [expandStep nkv ks ks.length])).getD (i - nkv) zeroWord)
        (tempTransform nkv i
          ((expandLoop nkv fuel (ks ++ [expandStep nkv ks ks.length])).getD (i - 1) zeroWord))
    by_cases hcase : ks.length + 1 ≤ i
    · exact ih (l := ks ++ [expandStep nkv ks ks.length])
        (by simp only [List.length_append, List.length_cons, List.length_nil]; omega)
        (by simp only [List.length_append, List.length_cons, List.length_nil]; omega)
        (by simp only [List.length_append, List.length_cons, List.length_nil]; omega)
    · have hi : i = ks.length := by omega
      subst hi
      have hstable := expandLoop_getD_lt nkv fuel
        (l := ks ++ [expandStep nkv ks ks.length]) (j := ks.length)
        (by simp only [List.length_append, List.length_cons, List.length_nil]; omega)
      rw [hstable, getD_append_len]
      have hm : ks.length - nkv < ks.length := by omega
      have hm1 : ks.length - 1 < ks.length := by omega
      have e1 := expandLoop_getD_lt nkv fuel
        (l := ks ++ [expandStep nkv ks ks.length]) (j := ks.length - nkv)
        (by simp only [List.length_append, List.length_cons, List.length_nil]; omega)
      have e2 := expandLoop_getD_lt nkv fuel
        (l := ks ++ [expandStep nkv ks ks.length]) (j := ks.length - 1)
        (by simp only [List.length_append, List.length_cons, List.length_nil]; omega)
      rw [e1, e2, List.getD_append _ _ _ _ hm, List.getD_append _ _ _ _ hm1]
      rfl

/-- The key bytes held by the `AESKey` variant. -/
def keyBytes : AESKey → List Nat
  | .AES128 k => k
  | .AES192 k => k
  | .AES256 k => k

/-- Word `j` of the raw key: bytes `4j..4j+3` in order. -/
def rawWord (key : AESKey) (j : Nat) : Word :=
  ⟨(keyBytes key).getD (4 * j) 0, (keyBytes key).getD (4 * j + 1) 0,
   (keyBytes key).getD (4 * j + 2) 0, (keyBytes key).getD (4 * j + 3) 0⟩

theorem key_expansion_length (key : AESKey) :
    (key_expansion key).length = 4 * (num_rounds key + 1) := by
  unfold key_expansion
  rw [expandLoop_length]
  cases key <;> simp [initWords, num_of_words, num_rounds]

/-- C2: `key_expansion` produces exactly `4 * (rounds + 1)` words; the first
`nk` words are the raw key bytes in order; and every later word at index `i`
equals `word[i - nk] XOR temp`, where `temp` is `word[i - 1]` transformed by
rotate/substitute/round-constant XOR when `i mod nk = 0`, by substitution
alone when `nk = 8` and `i mod nk = 4`, and untransformed otherwise. -/
theorem key_expansion_structure (key : AESKey) :
    (key_expansion key).length = 4 * (num_rounds key + 1) ∧
    (∀ j, j < nk key → (key_expansion key).getD j zeroWord = rawWord key j) ∧
    (∀ i, nk key ≤ i → i < (key_expansion key).length →
      (key_expansion key).getD i zeroWord =
        wordXor ((key_expansion key).getD (i - nk key) zeroWord)
          (tempTransform (nk key) i ((key_expansion key).getD (i - 1) zeroWord))) := by
  have hlen := key_expansion_length key
  refine ⟨hlen, ?_, ?_⟩
  · intro j hj
    unfold key_expansion
    rw [expandLoop_getD_lt _ _ (by cases key <;> simpa [initWords, nk] using hj)]
    cases key <;>
      revert hj <;>
      simp only [nk] <;>
      intro hj <;>
      interval_cases j <;>
      rfl
  · intro i hi hilen
    unfold key_expansion
    refine expandLoop_getD_ge (nk key) (by cases key <;> simp [nk]) _
      (by cases key <;> simp [initWords])
      (by cases key <;> simpa [initWords, nk] using hi) ?_
    rw [hlen] at hilen
    cases key <;> simp only [initWords, num_of_words, num_rounds, List.length_cons,
      List.length_nil] at hilen ⊢ <;> omega

/-- Witness for C2 at the AES-128 test key: schedule length 44, word 2 is
raw key bytes 8..11, and word 43 satisfies the recurrence. -/
theorem key_expansion_structure_witness :
    (key_expansion (AESKey.AES128
      [0x2b, 0x7e, 0x15, 0x16, 0x28, 0xae, 0xd2, 0xa6,
       0xab, 0xf7, 0x15, 0x88, 0x09, 0xcf, 0x4f, 0x3c])).length = 44 ∧
    (key_expansion (AESKey.AES128
      [0x2b, 0x7e, 0x15, 0x16, 0x28, 0xae, 0xd2, 0xa6,
       0xab, 0xf7, 0x15, 0x88, 0x09, 0xcf, 0x4f, 0x3c])).getD 2 zeroWord =
      rawWord (AESKey.AES128
        [0x2b, 0x7e, 0x15, 0x16, 0x28, 0xae, 0xd2, 0xa6,
         0xab, 0xf7, 0x15, 0x88, 0x09, 0xcf, 0x4f, 0x3c]) 2 ∧
    (key_expansion (AESKey.AES128
      [0x2b, 0x7e, 0x15, 0x16, 0x28, 0xae, 0xd2, 0xa6,
       0xab, 0xf7, 0x15, 0x88, 0x09, 0xcf, 0x4f, 0x3c])).getD 43 zeroWord =
      wordXor ((key_expansion (AESKey.AES128
        [0x2b, 0x7e, 0x15, 0x16, 0x28, 0xae, 0xd2, 0xa6,
         0xab, 0xf7, 0x15, 0x88, 0x09, 0xcf, 0x4f, 0x3c])).getD 39 zeroWord)
        (tempTransform 4 43 ((key_expansion (AESKey.AES128
          [0x2b, 0x7e, 0x15, 0x16, 0x28, 0xae, 0xd2, 0xa6,
           0xab, 0xf7, 0x15, 0x88, 0x09, 0xcf, 0x4f, 0x3c])).getD 42 zeroWord)) := by
  obtain ⟨h1, h2, h3⟩ := key_expansion_structure (AESKey.AES128
    [0x2b, 0x7e, 0x15, 0x16, 0x28, 0xae, 0xd2, 0xa6,
     0xab, 0xf7, 0x15, 0x88, 0x09, 0xcf, 0x4f, 0x3c])
  refine ⟨h1, h2 2 (by decide), ?_⟩
  have h43 := h3 43 (by decide) (by rw [h1]; decide)
  simpa [nk] using h43

/-- C5: For the AES-128 key `2b7e151628aed2a6abf7158809cf4f3c`, the expanded
schedule has 44 words and its last word (index 43) is `b6 63 0c a6`. -/
theorem key_expansion_last_word_aes128 :
    (key_expansion (AESKey.AES128
      [0x2b, 0x7e, 0x15, 0x16, 0x28, 0xae, 0xd2, 0xa6,
       0xab, 0xf7, 0x15, 0x88, 0x09, 0xcf, 0x4f, 0x3c])).length = 44 ∧
    (key_expansion (AESKey.AES128
      [0x2b, 0x7e, 0x15, 0x16, 0x28, 0xae, 0xd2, 0xa6,
       0xab, 0xf7, 0x15, 0x88, 0x09, 0xcf, 0x4f, 0x3c])).getD 43 zeroWord =
      ⟨0xb6, 0x63, 0x0c, 0xa6⟩ := by
  decide

/-! ## The encrypt pipeline as the spec states it (for C3) -/

/-- Written from the spec's description of the encrypt algorithm, steps 2-3:
for round = 1 .. rounds-1, apply SubBytes, ShiftRows, MixColumns and
AddRoundKey with words `[4 * round..4 * round + 4)`. -/
def encryptSpecLoop (ks : List Word) (nr : Nat) (s : AESState) : AESState :=
  (List.range' 1 (nr - 1)).foldl
    (fun st round => arkAt ks (4 * round) (mix_columns (shift_rows (sub_bytes st)))) s

/-- Written from the spec's description of the encrypt algorithm: load the
block column-major, AddRoundKey with words `[0..4)`, the main loop, then a
final round of SubBytes, ShiftRows and AddRoundKey with the last four words
(`4 * rounds` onward, no MixColumns), and serialize the state back. -/
def encryptSpec (key : AESKey) (block : List Nat) : List Nat :=
  let ks := key_expansion key
  let nr := num_rounds key
  from_state (arkAt ks (4 * nr) (shift_rows (sub_bytes
    (encryptSpecLoop ks nr (arkAt ks 0 (to_state block))))))

theorem encryptSpecLoop_eq_encRounds (ks : List Word) (n : Nat) (s : AESState) :
    (List.range' 1 n).foldl
      (fun st round => arkAt ks (4 * round) (mix_columns (shift_rows (sub_bytes st)))) s =
      encRounds ks n s := by
  induction n with
  | zero => rfl
  | succ n ih =>
    rw [List.range'_concat, List.foldl_append, ih]
    simp only [List.foldl_cons, List.foldl_nil]
    rw [show 4 * (1 + 1 * n) = (n + 1) * 4 by omega]
    rfl

/-- C3: `encrypt` loads the 16-byte block into a 4x4 state column-major,
applies AddRoundKey with schedule words `[0..4)`, then for each round from 1
to rounds-1 applies SubBytes, ShiftRows, MixColumns and AddRoundKey with
words `[4 * round..4 * round + 4)`, then a final round of SubBytes, ShiftRows
and AddRoundKey with the last 4 schedule words with no MixColumns, and
serializes the state back with the inverse mapping. -/
theorem encrypt_eq_encryptSpec (key : AESKey) (block : List Nat) :
    encrypt key block = encryptSpec key block := by
  simp only [encrypt, encryptSpec, encryptSpecLoop]
  rw [encryptSpecLoop_eq_encRounds, key_expansion_length key,
    show 4 * (num_rounds key + 1) - 4 = 4 * num_rounds key by omega]

/-! ## MixColumns as the spec states it (for C4) -/

/-- Multiplication by 2 in GF(2^8): `xtime` itself. -/
def mul2 (x : Nat) : Nat := xtime x

/-- Multiplication by 3 = 2 + 1 in GF(2^8). -/
def mul3 (x : Nat) : Nat := xtime x ^^^ x

/-- Multiplication by 9 = 8 + 1, built from repeated `xtime`. -/
def mul9 (x : Nat) : Nat := x ^^^ xtime (xtime (xtime x))

/-- Multiplication by 11 = 8 + 2 + 1, built from repeated `xtime`. -/
def mul11 (x : Nat) : Nat := x ^^^ xtime x ^^^ xtime (xtime (xtime x))

/-- Multiplication by 13 = 8 + 4 + 1, built from repeated `xtime`. -/
def mul13 (x : Nat) : Nat := x ^^^ xtime (xtime x) ^^^ xtime (xtime (xtime x))

/-- Multiplication by 14 = 8 + 4 + 2, built from repeated `xtime`. -/
def mul14 (x : Nat) : Nat := xtime x ^^^ xtime (xtime x) ^^^ xtime (xtime (xtime x))

/-- Written from the spec: forward MixColumns replaces each column by the
GF(2^8) linear combination with coefficients 2,3,1,1 cyclically per row. -/
def mixColumnsSpec (s : AESState) : AESState :=
  ⟨mul2 s.s00 ^^^ mul3 s.s10 ^^^ s.s20 ^^^ s.s30,
   mul2 s.s01 ^^^ mul3 s.s11 ^^^ s.s21 ^^^ s.s31,
   mul2 s.s02 ^^^ mul3 s.s12 ^^^ s.s22 ^^^ s.s32,
   mul2 s.s03 ^^^ mul3 s.s13 ^^^ s.s23 ^^^ s.s33,
   s.s00 ^^^ mul2 s.s10 ^^^ mul3 s.s20 ^^^ s.s30,
   s.s01 ^^^ mul2 s.s11 ^^^ mul3 s.s21 ^^^ s.s31,
   s.s02 ^^^ mul2 s.s12 ^^^ mul3 s.s22 ^^^ s.s32,
   s.s03 ^^^ mul2 s.s13 ^^^ mul3 s.s23 ^^^ s.s33,
   s.s00 ^^^ s.s10 ^^^ mul2 s.s20 ^^^ mul3 s.s30,
   s.s01 ^^^ s.s11 ^^^ mul2 s.s21 ^^^ mul3 s.s31,
   s.s02 ^^^ s.s12 ^^^ mul2 s.s22 ^^^ mul3 s.s32,
   s.s03 ^^^ s.s13 ^^^ mul2 s.s23 ^^^ mul3 s.s33,
   mul3 s.s00 ^^^ s.s10 ^^^ s.s20 ^^^ mul2 s.s30,
   mul3 s.s01 ^^^ s.s11 ^^^ s.s21 ^^^ mul2 s.s31,
   mul3 s.s02 ^^^ s.s12 ^^^ s.s22 ^^^ mul2 s.s32,
   mul3 s.s03 ^^^ s.s13 ^^^ s.s23 ^^^ mul2 s.s33⟩

/-- Written from the spec: inverse MixColumns uses coefficients 14,11,13,9
cyclically per row, each built from repeated `xtime`. -/
def invMixColumnsSpec (s : AESState) : AESState :=
  ⟨mul14 s.s00 ^^^ mul11 s.s10 ^^^ mul13 s.s20 ^^^ mul9 s.s30,
   mul14 s.s01 ^^^ mul11 s.s11 ^^^ mul13 s.s21 ^^^ mul9 s.s31,
   mul14 s.s02 ^^^ mul11 s.s12 ^^^ mul13 s.s22 ^^^ mul9 s.s32,
   mul14 s.s03 ^^^ mul11 s.s13 ^^^ mul13 s.s23 ^^^ mul9 s.s33,
   mul9 s.s00 ^^^ mul14 s.s10 ^^^ mul11 s.s20 ^^^ mul13 s.s30,
   mul9 s.s01 ^^^ mul14 s.s11 ^^^ mul11 s.s21 ^^^ mul13 s.s31,
   mul9 s.s02 ^^^ mul14 s.s12 ^^^ mul11 s.s22 ^^^ mul13 s.s32,
   mul9 s.s03 ^^^ mul14 s.s13 ^^^ mul11 s.s23 ^^^ mul13 s.s33,
   mul13 s.s00 ^^^ mul9 s.s10 ^^^ mul14 s.s20 ^^^ mul11 s.s30,
   mul13 s.s01 ^^^ mul9 s.s11 ^^^ mul14 s.s21 ^^^ mul11 s.s31,
   mul13 s.s02 ^^^ mul9 s.s12 ^^^ mul14 s.s22 ^^^ mul11 s.s32,
   mul13 s.s03 ^^^ mul9 s.s13 ^^^ mul14 s.s23 ^^^ mul11 s.s33,
   mul11 s.s00 ^^^ mul13 s.s10 ^^^ mul9 s.s20 ^^^ mul14 s.s30,
   mul11 s.s01 ^^^ mul13 s.s11 ^^^ mul9 s.s21 ^^^ mul14 s.s31,
   mul11 s.s02 ^^^ mul13 s.s12 ^^^ mul9 s.s22 ^^^ mul14 s.s32,
   mul11 s.s03 ^^^ mul13 s.s13 ^^^ mul9 s.s23 ^^^ mul14 s.s33⟩

/-- C4: `mix_columns` replaces each state column by the GF(2^8) linear
combination with coefficients 2,3,1,1 cyclically per row, `inv_mix_columns`
by the combination with coefficients 14,11,13,9 built from repeated `xtime`
doubling, and for every in-range 4x4 byte state applying `mix_columns` then
`inv_mix_columns` returns the original state. -/
theorem mix_columns_correct :
    (∀ s : AESState, mix_columns s = mixColumnsSpec s) ∧
    (∀ s : AESState, inv_mix_columns s = invMixColumnsSpec s) ∧
    (∀ s : AESState, StateBounded s → inv_mix_columns (mix_columns s) = s) :=
  ⟨fun s => by cases s; rfl,
   fun s => by cases s; rfl,
   fun _ hs => inv_mix_columns_mix_columns hs⟩

/-- Witness for C4 at a concrete state. -/
theorem mix_columns_correct_witness :
    StateBounded ⟨0, 17, 34, 51, 68, 85, 102, 119,
      136, 153, 170, 187, 204, 221, 238, 255⟩ ∧
    inv_mix_columns (mix_columns ⟨0, 17, 34, 51, 68, 85, 102, 119,
      136, 153, 170, 187, 204, 221, 238, 255⟩) =
      ⟨0, 17, 34, 51, 68, 85, 102, 119, 136, 153, 170, 187, 204, 221, 238, 255⟩ :=
  ⟨by decide, mix_columns_correct.2.2 _ (by decide)⟩

/-! ## The padding module (`padding.rs`) -/

/-- The `PaddingTypes` enum from `padding.rs`. -/
inductive PaddingTypes where
  | PKCS7
  | ISO78164
  | ISO101262
  | X923
  | None
  deriving DecidableEq, Repr

/-- The failure modes of `pad`/`de_pad`. The Rust code panics; each panic
site is modelled as one error value: the two dedicated panic messages of
`pad`, the shared "Invalid padding." panic of `de_pad`, out-of-range slice
indexing, and the `usize` subtraction underflow of the ISO 7816-4 scan.
`InvalidBlockSize` is named by the spec and included so that statements about
it can be made; no code path produces it. -/
inductive PaddingError where
  | NonePaddingUsed
  | InvalidSize
  | InvalidPadding
  | InvalidBlockSize
  | IndexOutOfRange
  | Underflow
  deriving DecidableEq, Repr

/-- `Padding::pad`. The `random::<u8>()` stream of the ISO 10126-2 branch is
supplied as the function `rnd` (byte for each filled position); `% 256` makes
the `u8` range of those bytes explicit. The fills become list appends:
copied input, then the scheme's pad bytes. A 16-byte input hits the
dedicated panic; a longer one makes `output[..input.len()]` panic
out of range, modelled as `IndexOutOfRange`. -/
def pad (pt : PaddingTypes) (rnd : Nat → Nat) (input : List Nat) :
    Except PaddingError (List Nat) :=
  if pt = PaddingTypes.None then .error .NonePaddingUsed
  else if input.length = 16 then .error .InvalidSize
  else if 16 < input.length then .error .IndexOutOfRange
  else
    match pt with
    | .PKCS7 =>
      .ok (input ++ List.replicate (16 - input.length) (16 - input.length))
    | .ISO78164 =>
      .ok (input ++ 0x80 :: List.replicate (16 - input.length - 1) 0)
    | .ISO101262 =>
      .ok (input ++
        (List.range' input.length (16 - input.length - 1)).map (fun i => rnd i % 256) ++
        [16 - input.length])
    | .X923 =>
      .ok (input ++ List.replicate (16 - input.length - 1) 0 ++ [16 - input.length])
    | .None => .error .NonePaddingUsed

/-- `for i in lo..hi` checking `p` at every index (the validation loops of
`Padding::de_pad`): true when no iteration panics. -/
def rangeAll (lo hi : Nat) (p : Nat → Bool) : Bool :=
  (List.range' lo (hi - lo)).all p

/-- The backward sentinel scan of the ISO 7816-4 branch of `Padding::de_pad`:
`while input[curr_index] == 0 { curr_index -= 1 }`. Decrementing past index 0
underflows the `usize` counter, modelled as the `Underflow` error. -/
def scan78164 (input : List Nat) : Nat → Except PaddingError Nat
  | 0 => if input.getD 0 0 = 0 then .error .Underflow else .ok 0
  | i + 1 => if input.getD (i + 1) 0 = 0 then scan78164 input i else .ok (i + 1)

/-- The sentinel validation after the ISO 7816-4 scan: propagate a scan
failure, otherwise check `input[curr_index] == 0x80` and the distance bound
`input.len() - curr_index <= 16`. -/
def iso78164_check (input : List Nat) (res : Except PaddingError Nat) :
    Except PaddingError (List Nat) :=
  match res with
  | .error e => .error e
  | .ok curr_index =>
    if input.getD curr_index 0 ≠ 0x80 ∨ 16 < input.length - curr_index then
      .error .InvalidPadding
    else
      .ok (input.take curr_index)

/-- `Padding::de_pad`. Each branch reads `input[input.len() - 1]` first, so
the empty input is rejected as `IndexOutOfRange` up front; in the X9.23
branch the loop start `input.len() - padding_length` underflows when the
count exceeds the length, modelled as `Underflow`. -/
def de_pad (pt : PaddingTypes) (input : List Nat) : Except PaddingError (List Nat) :=
  if pt = PaddingTypes.None then .error .NonePaddingUsed
  else if input.length = 0 then .error .IndexOutOfRange
  else
    match pt with
    | .PKCS7 =>
      let padding_length := input.getD (input.length - 1) 0
      if 16 < padding_length ∨ input.length < padding_length then
        .error .InvalidPadding
      else if rangeAll (input.length - padding_length) (input.length - 1)
          (fun i => input.getD i 0 == padding_length) then
        .ok (input.take (input.length - padding_length))
      else
        .error .InvalidPadding
    | .ISO78164 =>
      iso78164_check input (scan78164 input (input.length - 1))
    | .ISO101262 =>
      let padding_length := input.getD (input.length - 1) 0
      if 16 < padding_length ∨ input.length < padding_length then
        .error .InvalidPadding
      else
        .ok (input.take (input.length - padding_length))
    | .X923 =>
      let padding_length := input.getD (input.length - 1) 0
      if 16 < padding_length then
        .error .InvalidPadding
      else if input.length < padding_length then
        .error .Underflow
      else if rangeAll (input.length - padding_length) (input.length - 1)
          (fun i => input.getD i 0 == 0) then
        .ok (input.take (input.length - padding_length))
      else
        .error .InvalidPadding
    | .None => .error .NonePaddingUsed

/-! ## Padding lemmas -/

theorem getD_replicate {v m j : Nat} (h : j < m) :
    (List.replicate m v).getD j 0 = v := by
  induction m generalizing j with
  | zero => omega
  | succ m ih =>
    cases j with
    | zero => rfl
    | succ j => simpa [List.replicate_succ, List.getD_cons_succ] using ih (by omega)

/-- Success shape of the PKCS7 branch of `de_pad`. -/
theorem de_pad_pkcs7_ok {input : List Nat} (h0 : ¬input.length = 0)
    (hpl16 : input.getD (input.length - 1) 0 ≤ 16)
    (hpllen : input.getD (input.length - 1) 0 ≤ input.length)
    (hall : rangeAll (input.length - input.getD (input.length - 1) 0) (input.length - 1)
      (fun i => input.getD i 0 == input.getD (input.length - 1) 0) = true) :
    de_pad PaddingTypes.PKCS7 input =
      Except.ok (input.take (input.length - input.getD (input.length - 1) 0)) := by
  simp only [de_pad]
  rw [if_neg (by decide), if_neg h0, if_neg (by omega), if_pos hall]

/-- Success shape of the ISO 10126-2 branch of `de_pad`. -/
theorem de_pad_iso101262_ok {input : List Nat} (h0 : ¬input.length = 0)
    (hpl16 : input.getD (input.length - 1) 0 ≤ 16)
    (hpllen : input.getD (input.length - 1) 0 ≤ input.length) :
    de_pad PaddingTypes.ISO101262 input =
      Except.ok (input.take (input.length - input.getD (input.length - 1) 0)) := by
  simp only [de_pad]
  rw [if_neg (by decide), if_neg h0, if_neg (by omega)]

/-- Success shape of the X9.23 branch of `de_pad`. -/
theorem de_pad_x923_ok {input : List Nat} (h0 : ¬input.length = 0)
    (hpl16 : input.getD (input.length - 1) 0 ≤ 16)
    (hpllen : input.getD (input.length - 1) 0 ≤ input.length)
    (hall : rangeAll (input.length - input.getD (input.length - 1) 0) (input.length - 1)
      (fun i => input.getD i 0 == 0) = true) :
    de_pad PaddingTypes.X923 input =
      Except.ok (input.take (input.length - input.getD (input.length - 1) 0)) := by
  simp only [de_pad]
  rw [if_neg (by decide), if_neg h0, if_neg (by omega), if_neg (by omega), if_pos hall]

/-- Success shape of the ISO 7816-4 branch of `de_pad`. -/
theorem de_pad_iso78164_ok {input : List Nat} {ci : Nat} (h0 : ¬input.length = 0)
    (hscan : scan78164 input (input.length - 1) = Except.ok ci)
    (h80 : input.getD ci 0 = 0x80) (hle : input.length - ci ≤ 16) :
    de_pad PaddingTypes.ISO78164 input = Except.ok (input.take ci) := by
  simp only [de_pad]
  rw [if_neg (by decide), if_neg h0, hscan]
  simp only [iso78164_check]
  rw [if_neg ?_]
  rintro (hne | hlt)
  · exact hne h80
  · omega

/-- The backward scan stops at the first non-zero byte from the right. -/
theorem scan78164_found {input : List Nat} {i0 : Nat} (k : Nat)
    (hnz : ¬input.getD i0 0 = 0)
    (hz : ∀ j, i0 < j → j ≤ i0 + k → input.getD j 0 = 0) :
    scan78164 input (i0 + k) = Except.ok i0 := by
  induction k with
  | zero =>
    cases i0 with
    | zero => simp only [scan78164, if_neg hnz]
    | succ i => simp only [scan78164, if_neg hnz]
  | succ k ih =>
    have hz1 : input.getD (i0 + k + 1) 0 = 0 := hz (i0 + k + 1) (by omega) (by omega)
    show scan78164 input (i0 + k + 1) = Except.ok i0
    simp only [scan78164, hz1]
    rw [if_pos trivial]
    exact ih (fun j h1 h2 => hz j h1 (by omega))

/-- If the scan underflows, every byte up to the start index is zero. -/
theorem scan78164_underflow {input : List Nat} (i : Nat)
    (h : scan78164 input i = Except.error PaddingError.Underflow) :
    ∀ j, j ≤ i → input.getD j 0 = 0 := by
  induction i with
  | zero =>
    intro j hj
    rw [Nat.le_zero.mp hj]
    by_cases h0 : input.getD 0 0 = 0
    · exact h0
    · simp only [scan78164, if_neg h0] at h
      exact Except.noConfusion h
  | succ i ih =>
    intro j hj
    by_cases h0 : input.getD (i + 1) 0 = 0
    · rcases Nat.lt_or_ge j (i + 1) with hlt | hge
      · simp only [scan78164, if_pos h0] at h
        exact ih h j (by omega)
      · rw [show j = i + 1 by omega]
        exact h0
    · simp only [scan78164, if_neg h0] at h
      exact Except.noConfusion h

/-- PKCS7 round-trip on one block. -/
theorem pkcs7_roundtrip {input : List Nat} (hlen : input.length < 16) :
    de_pad PaddingTypes.PKCS7
      (input ++ List.replicate (16 - input.length) (16 - input.length)) =
      Except.ok input := by
  have hplen :
      (input ++ List.replicate (16 - input.length) (16 - input.length)).length = 16 := by
    simp only [List.length_append, List.length_replicate]
    omega
  have hlast :
      (input ++ List.replicate (16 - input.length) (16 - input.length)).getD
        ((input ++ List.replicate (16 - input.length) (16 - input.length)).length - 1) 0 =
        16 - input.length := by
    rw [hplen, List.getD_append_right _ _ _ _ (by omega)]
    exact getD_replicate (by omega)
  rw [de_pad_pkcs7_ok (by omega) (by rw [hlast]; omega) (by rw [hlast, hplen]; omega) ?_]
  · rw [hlast, hplen, show 16 - (16 - input.length) = input.length by omega,
      List.take_left' rfl]
  · rw [hlast, hplen, rangeAll, List.all_eq_true]
    intro x hx
    rw [List.mem_range'] at hx
    obtain ⟨i, hi, rfl⟩ := hx
    rw [List.getD_append_right _ _ _ _ (by omega), getD_replicate (by omega)]
    exact beq_self_eq_true _

/-- ISO 10126-2 round-trip on one block, for any random filler bytes. -/
theorem iso101262_roundtrip {input : List Nat} (rnd : Nat → Nat)
    (hlen : input.length < 16) :
    de_pad PaddingTypes.ISO101262
      (input ++
        (List.range' input.length (16 - input.length - 1)).map (fun i => rnd i % 256) ++
        [16 - input.length]) =
      Except.ok input := by
  have himl : (input ++
      (List.range' input.length (16 - input.length - 1)).map (fun i => rnd i % 256)).length
      = 15 := by
    simp only [List.length_append, List.length_map, List.length_range']
    omega
  have hplen : (input ++
      (List.range' input.length (16 - input.length - 1)).map (fun i => rnd i % 256) ++
      [16 - input.length]).length = 16 := by
    simp only [List.length_append, List.length_map, List.length_range',
      List.length_cons, List.length_nil]
    omega
  have hlast : (input ++
      (List.range' input.length (16 - input.length - 1)).map (fun i => rnd i % 256) ++
      [16 - input.length]).getD
        ((input ++
          (List.range' input.length (16 - input.length - 1)).map (fun i => rnd i % 256) ++
          [16 - input.length]).length - 1) 0 = 16 - input.length := by
    rw [hplen, List.getD_append_right _ _ _ _ (by rw [himl]), himl]
    rfl
  rw [de_pad_iso101262_ok (by omega) (by rw [hlast]; omega) (by rw [hlast, hplen]; omega)]
  rw [hlast, hplen, show 16 - (16 - input.length) = input.length by omega,
    List.append_assoc, List.take_left' rfl]

/-- X9.23 round-trip on one block. -/
theorem x923_roundtrip {input : List Nat} (hlen : input.length < 16) :
    de_pad PaddingTypes.X923
      (input ++ List.replicate (16 - input.length - 1) 0 ++ [16 - input.length]) =
      Except.ok input := by
  have himl : (input ++ List.replicate (16 - input.length - 1) 0).length = 15 := by
    simp only [List.length_append, List.length_replicate]
    omega
  have hplen : (input ++ List.replicate (16 - input.length - 1) 0 ++
      [16 - input.length]).length = 16 := by
    simp only [List.length_append, List.length_replicate, List.length_cons,
      List.length_nil]
    omega
  have hlast : (input ++ List.replicate (16 - input.length - 1) 0 ++
      [16 - input.length]).getD
        ((input ++ List.replicate (16 - input.length - 1) 0 ++
          [16 - input.length]).length - 1) 0 = 16 - input.length := by
    rw [hplen, List.getD_append_right _ _ _ _ (by rw [himl]), himl]
    rfl
  rw [de_pad_x923_ok (by omega) (by rw [hlast]; omega) (by rw [hlast, hplen]; omega) ?_]
  · rw [hlast, hplen, show 16 - (16 - input.length) = input.length by omega,
      List.append_assoc, List.take_left' rfl]
  · rw [hlast, hplen, rangeAll, List.all_eq_true]
    intro x hx
    rw [List.mem_range'] at hx
    obtain ⟨i, hi, rfl⟩ := hx
    rw [List.getD_append _ _ _ _ (by rw [himl]; omega),
      List.getD_append_right _ _ _ _ (by omega), getD_replicate (by omega)]
    rfl

/-- ISO 7816-4 round-trip on one block. -/
theorem iso78164_roundtrip {input : List Nat} (hlen : input.length < 16) :
    de_pad PaddingTypes.ISO78164
      (input ++ 0x80 :: List.replicate (16 - input.length - 1) 0) =
      Except.ok input := by
  have hplen : (input ++ 0x80 :: List.replicate (16 - input.length - 1) 0).length = 16 := by
    simp only [List.length_append, List.length_cons, List.length_replicate]
    omega
  have hsent : (input ++ 0x80 :: List.replicate (16 - input.length - 1) 0).getD
      input.length 0 = 0x80 := by
    rw [List.getD_append_right _ _ _ _ (by omega), Nat.sub_self]
    rfl
  have hzero : ∀ j, input.length < j → j ≤ 15 →
      (input ++ 0x80 :: List.replicate (16 - input.length - 1) 0).getD j 0 = 0 := by
    intro j h1 h2
    rw [List.getD_append_right _ _ _ _ (by omega)]
    rw [show j - input.length = (j - input.length - 1) + 1 by omega, List.getD_cons_succ]
    exact getD_replicate (by omega)
  have hscan : scan78164 (input ++ 0x80 :: List.replicate (16 - input.length - 1) 0)
      ((input ++ 0x80 :: List.replicate (16 - input.length - 1) 0).length - 1) =
      Except.ok input.length := by
    rw [hplen, show (16 : Nat) - 1 = input.length + (15 - input.length) by omega]
    exact scan78164_found _ (by rw [hsent]; norm_num)
      (fun j hj1 hj2 => hzero j hj1 (by omega))
  rw [de_pad_iso78164_ok (by omega) hscan hsent (by rw [hplen]; omega)]
  rw [List.take_left' rfl]

/-- C6: For every padding scheme except None and every input of length
`len` with `0 ≤ len < 16`, de-padding the padded block recovers the input
exactly, for every choice of the random bytes ISO 10126-2 inserts. -/
theorem pad_de_pad_roundtrip (pt : PaddingTypes) (rnd : Nat → Nat)
    (input : List Nat) (hpt : pt ≠ PaddingTypes.None) (hlen : input.length < 16) :
    (pad pt rnd input).bind (de_pad pt) = Except.ok input := by
  have h16 : ¬input.length = 16 := by omega
  have h16' : ¬16 < input.length := by omega
  cases pt with
  | None => exact absurd rfl hpt
  | PKCS7 =>
    simp only [pad]
    rw [if_neg (by decide), if_neg h16, if_neg h16']
    exact pkcs7_roundtrip hlen
  | ISO78164 =>
    simp only [pad]
    rw [if_neg (by decide), if_neg h16, if_neg h16']
    exact iso78164_roundtrip hlen
  | ISO101262 =>
    simp only [pad]
    rw [if_neg (by decide), if_neg h16, if_neg h16']
    exact iso101262_roundtrip rnd hlen
  | X923 =>
    simp only [pad]
    rw [if_neg (by decide), if_neg h16, if_neg h16']
    exact x923_roundtrip hlen

/-- Witness for C6: PKCS7 round-trip on the 2-byte input of the crate's
own test. -/
theorem pad_de_pad_roundtrip_witness :
    ([161, 160] : List Nat).length < 16 ∧
    (pad PaddingTypes.PKCS7 (fun _ => 0) [161, 160]).bind
      (de_pad PaddingTypes.PKCS7) = Except.ok [161, 160] :=
  ⟨by decide, pad_de_pad_roundtrip PaddingTypes.PKCS7 (fun _ => 0) [161, 160]
    (by decide) (by decide)⟩

/-- Counterexample for C7: a 1-byte input is de-padded successfully by the
PKCS7 branch, so `de_pad` does not fail with `InvalidBlockSize` on inputs
whose length is not 16. -/
theorem de_pad_non16_not_invalid_block_size :
    de_pad PaddingTypes.PKCS7 [1] = Except.ok [] ∧
    (de_pad PaddingTypes.PKCS7 [1] =
      Except.error PaddingError.InvalidBlockSize) = False := by
  have h1 : de_pad PaddingTypes.PKCS7 [1] = Except.ok [] := rfl
  refine ⟨h1, eq_false fun h => ?_⟩
  rw [h1] at h
  simp at h

/-- C7 (amended): `de_pad` performs no block-length validation at all: a
non-16-byte input is processed by the scheme logic, so the 1-byte input
`[0x01]` de-pads to the empty sequence under PKCS7, X9.23 and ISO 10126-2,
and fails with `InvalidPadding` (not `InvalidBlockSize`) under ISO 7816-4. -/
theorem de_pad_no_length_check :
    de_pad PaddingTypes.PKCS7 [1] = Except.ok [] ∧
    de_pad PaddingTypes.X923 [1] = Except.ok [] ∧
    de_pad PaddingTypes.ISO101262 [1] = Except.ok [] ∧
    de_pad PaddingTypes.ISO78164 [1] = Except.error PaddingError.InvalidPadding :=
  ⟨rfl, rfl, rfl, rfl⟩

/-- C8 (amended): `pad` fails with `NonePaddingUsed` whenever the scheme is
None (checked first); with `InvalidSize` exactly when the input length is 16;
on longer inputs it fails with the out-of-range slice panic, not
`InvalidSize`; and succeeds with a 16-byte block on every shorter input. -/
theorem pad_error_behavior (pt : PaddingTypes) (rnd : Nat → Nat) (input : List Nat) :
    (pt = PaddingTypes.None →
      pad pt rnd input = Except.error PaddingError.NonePaddingUsed) ∧
    (pt ≠ PaddingTypes.None → input.length = 16 →
      pad pt rnd input = Except.error PaddingError.InvalidSize) ∧
    (pt ≠ PaddingTypes.None → 16 < input.length →
      pad pt rnd input = Except.error PaddingError.IndexOutOfRange) ∧
    (pt ≠ PaddingTypes.None → input.length < 16 →
      ∃ out, pad pt rnd input = Except.ok out ∧ out.length = 16) := by
  refine ⟨?_, ?_, ?_, ?_⟩
  · intro h
    subst h
    rfl
  · intro hne h16
    simp only [pad]
    rw [if_neg hne, if_pos h16]
  · intro hne h17
    simp only [pad]
    rw [if_neg hne, if_neg (by omega), if_pos h17]
  · intro hne hlt
    cases pt with
    | None => exact absurd rfl hne
    | PKCS7 =>
      simp only [pad]
      rw [if_neg (by decide), if_neg (by omega), if_neg (by omega)]
      exact ⟨_, rfl, by simp only [List.length_append, List.length_replicate]; omega⟩
    | ISO78164 =>
      simp only [pad]
      rw [if_neg (by decide), if_neg (by omega), if_neg (by omega)]
      exact ⟨_, rfl, by
        simp only [List.length_append, List.length_cons, List.length_replicate]
        omega⟩
    | ISO101262 =>
      simp only [pad]
      rw [if_neg (by decide), if_neg (by omega), if_neg (by omega)]
      exact ⟨_, rfl, by
        simp only [List.length_append, List.length_map, List.length_range',
          List.length_cons, List.length_nil]
        omega⟩
    | X923 =>
      simp only [pad]
      rw [if_neg (by decide), if_neg (by omega), if_neg (by omega)]
      exact ⟨_, rfl, by
        simp only [List.length_append, List.length_replicate, List.length_cons,
          List.length_nil]
        omega⟩

/-- Witness for C8: a 17-byte input under PKCS7 hits the out-of-range
failure. -/
theorem pad_error_behavior_witness :
    pad PaddingTypes.PKCS7 (fun _ => 0) (List.replicate 17 0) =
      Except.error PaddingError.IndexOutOfRange :=
  (pad_error_behavior PaddingTypes.PKCS7 (fun _ => 0) (List.replicate 17 0)).2.2.1
    (by decide) (by decide)

/-- Counterexample for C8: on a 17-byte input, `pad` does not fail with
`InvalidSize` (the dedicated check fires only at length exactly 16; the
longer input dies on the out-of-range slice instead). -/
theorem pad_seventeen_not_invalid_size :
    (pad PaddingTypes.PKCS7 (fun _ => 0) (List.replicate 17 0) =
      Except.error PaddingError.InvalidSize) = False := by
  have h1 : pad PaddingTypes.PKCS7 (fun _ => 0) (List.replicate 17 0) =
      Except.error PaddingError.IndexOutOfRange := rfl
  refine eq_false fun h => ?_
  rw [h1] at h
  simp at h

/-- C9: for the ISO 10126-2 scheme, `de_pad` validates only the trailing
count byte and its bound: every 16-byte block whose last byte `n` is at most
16 de-pads successfully to its first `16 - n` bytes, regardless of the
interior pad bytes. -/
theorem de_pad_iso101262_validates_only_count (input : List Nat)
    (hlen : input.length = 16) (hn : input.getD 15 0 ≤ 16) :
    de_pad PaddingTypes.ISO101262 input =
      Except.ok (input.take (16 - input.getD 15 0)) := by
  have h15 : input.getD (input.length - 1) 0 = input.getD 15 0 := by rw [hlen]
  rw [de_pad_iso101262_ok (by omega) (by rw [h15]; omega) (by rw [h15, hlen]; omega)]
  rw [h15, hlen]

/-- Witness for C9 at a block with arbitrary junk interior bytes. -/
theorem de_pad_iso101262_validates_only_count_witness :
    ([7, 8, 222, 173, 190, 239, 99, 99, 99, 99, 99, 99, 99, 99, 99, 4] :
      List Nat).length = 16 ∧
    ([7, 8, 222, 173, 190, 239, 99, 99, 99, 99, 99, 99, 99, 99, 99, 4] :
      List Nat).getD 15 0 ≤ 16 ∧
    de_pad PaddingTypes.ISO101262
      [7, 8, 222, 173, 190, 239, 99, 99, 99, 99, 99, 99, 99, 99, 99, 4] =
      Except.ok (([7, 8, 222, 173, 190, 239, 99, 99, 99, 99, 99, 99, 99, 99, 99, 4] :
        List Nat).take
        (16 - ([7, 8, 222, 173, 190, 239, 99, 99, 99, 99, 99, 99, 99, 99, 99, 4] :
          List Nat).getD 15 0)) :=
  ⟨rfl, by decide, de_pad_iso101262_validates_only_count _ rfl (by decide)⟩

/-- C10: the ISO 7816-4 backward scan of `de_pad` decrements its index with
no lower bound: on the all-zero 16-byte block it underflows (reaching the
out-of-range branch of the embedding, not an InvalidPadding failure), and it
stays within bounds exactly on the 16-byte blocks that contain at least one
non-zero byte. -/
theorem de_pad_iso78164_underflow :
    de_pad PaddingTypes.ISO78164 (List.replicate 16 0) =
      Except.error PaddingError.Underflow ∧
    (∀ input : List Nat, input.length = 16 → (∃ b ∈ input, 0 < b) →
      (de_pad PaddingTypes.ISO78164 input =
        Except.error PaddingError.Underflow) = False) := by
  refine ⟨rfl, ?_⟩
  intro input hlen hex
  refine eq_false fun h => ?_
  have hscan : scan78164 input (input.length - 1) =
      Except.error PaddingError.Underflow := by
    simp only [de_pad] at h
    rw [if_neg (by decide), if_neg (by omega)] at h
    cases hs : scan78164 input (input.length - 1) with
    | error e =>
      rw [hs] at h
      simp only [iso78164_check] at h
      rw [Except.error.inj h]
    | ok ci =>
      rw [hs] at h
      simp only [iso78164_check] at h
      by_cases hc : input.getD ci 0 ≠ 0x80 ∨ 16 < input.length - ci
      · rw [if_pos hc] at h
        exact absurd (Except.error.inj h) (by decide)
      · rw [if_neg hc] at h
        exact Except.noConfusion h
  have hall := scan78164_underflow _ hscan
  obtain ⟨b, hb, hbpos⟩ := hex
  obtain ⟨j, hj, rfl⟩ := List.mem_iff_getElem.mp hb
  have hz := hall j (by omega)
  rw [List.getD_eq_getElem _ _ (by omega)] at hz
  omega

/-- Witness for C10 at a 16-byte block with a single non-zero byte. -/
theorem de_pad_iso78164_underflow_witness :
    (List.replicate 15 0 ++ [1] : List Nat).length = 16 ∧
    (de_pad PaddingTypes.ISO78164 (List.replicate 15 0 ++ [1]) =
      Except.error PaddingError.Underflow) = False :=
  ⟨by decide, de_pad_iso78164_underflow.2 (List.replicate 15 0 ++ [1])
    (by decide) ⟨1, by decide, by decide⟩⟩

end TinyAES
